import Mathlib

set_option maxHeartbeats 1000000

/-!
Verification development for the SourcetrailTypescriptIndexer core.

The repository contains several drafts of the same indexing engine:
a builder-API draft (src/unnamed/part_000, first class, and
src/src/indexing_logic.ts) and writer-API drafts (second class in
src/unnamed/part_000, and src/unnamed/part_001).  The definitions below
embed the relevant functions of those drafts; the doc comment of each
definition names its source location.  The SourcetrailDB store itself is
an external collaborator (not under src/); where a claim depends on its
behaviour it is modelled from the specification, and the corresponding
definitions say so explicitly.
-/

-- ## Common data model (sourcetraildb value types, spec section 3)

inductive SymbolKind where
  | MODULE
  | PACKAGE
  | FIELD
  | GLOBAL_VARIABLE
  | TYPEDEF
  | MACRO
  deriving DecidableEq, Repr

inductive DefinitionKind where
  | EXPLICIT
  | IMPLICIT
  deriving DecidableEq, Repr

inductive ReferenceKind where
  | INCLUDE
  | USAGE
  deriving DecidableEq, Repr

/-- A name hierarchy: separator plus ordered name elements (spec section 3).
Equality is componentwise, which makes it the identity key for symbols. -/
structure NameHierarchy where
  sep : String
  elems : List String
  deriving DecidableEq, Repr

/-- A zero-based (line, character) pair as produced by the TypeScript
front-end (ts.LineAndCharacter). -/
structure LineAndCharacter where
  line : Nat
  character : Nat
  deriving DecidableEq, Repr

/-- A store source range: file id plus start/end line and column numbers,
in the 1-based convention of the store. -/
structure SourceRange where
  fileId : Nat
  startLine : Nat
  startCol : Nat
  endLine : Nat
  endCol : Nat
  deriving DecidableEq, Repr

-- ## Source range conversions (claim C2)

/-- toSourceRange of the builder draft (src/unnamed/part_000 lines 60-71):
file.at(start.line + 1, start.character + 1, end.line + 1, end.character).
The start column is shifted by one, the end column is passed through. -/
def toSourceRangeBuilder (fileId : Nat) (s e : LineAndCharacter) : SourceRange :=
  { fileId := fileId
    startLine := s.line + 1
    startCol := s.character + 1
    endLine := e.line + 1
    endCol := e.character }

/-- Indexing.toSourceRange of src/src/indexing_logic.ts lines 235-246 and of
the writer draft (src/unnamed/part_000 lines 950-962): the start column is
passed through zero-based, the end column is shifted by one. -/
def toSourceRangeLogic (fileId : Nat) (s e : LineAndCharacter) : SourceRange :=
  { fileId := fileId
    startLine := s.line + 1
    startCol := s.character
    endLine := e.line + 1
    endCol := e.character + 1 }

/-- The inline conversion of addDiagnostics (src/unnamed/part_000 lines
216-221 and 755-761, src/src/indexing_logic.ts lines 109-114): both the
start and the end column are shifted by one. -/
def toSourceRangeDiagnostics (fileId : Nat) (s e : LineAndCharacter) : SourceRange :=
  { fileId := fileId
    startLine := s.line + 1
    startCol := s.character + 1
    endLine := e.line + 1
    endCol := e.character + 1 }

/-- Modelled from the spec: the canonical toRange conversion of section 4.2,
(start.line + 1, start.col + 1) to (end.line + 1, end.col + 1), which the
spec declares mandatory for every caller. -/
def toRangeSpec (fileId : Nat) (s e : LineAndCharacter) : SourceRange :=
  { fileId := fileId
    startLine := s.line + 1
    startCol := s.character + 1
    endLine := e.line + 1
    endCol := e.character + 1 }

-- ## File registry of the writer drafts (claims C3 and C8)

/-- The memoisation state of the Indexing class: the fileIds map, kept as an
association list in insertion order (Map.set on a fresh key appends). -/
structure IndexingFileIds where
  fileIds : List (String × Nat)
  deriving DecidableEq, Repr

/-- A value-discarding JavaScript expression new Error(message): the Error
object is constructed and immediately dropped.  No exception is raised,
because only a throw statement aborts execution.  Embedded as a no-op. -/
def newErrorNoThrow (_msg : String) : Unit := ()

/-- getFileId of the writer drafts (src/unnamed/part_000 lines 721-737,
src/unnamed/part_001 lines 93-109).  The underlying store calls recordFile
and recordFileLanguage are abstracted as oracles; 0 respectively false is
the store failure result.  On failure the source evaluates
new Error(this.sdbWriter.getLastError()) without throw, so the failure
branches are value-discarding no-ops: the function always memoises the
returned id (even the invalid id 0) and returns it. -/
def getFileId (recordFile : String → Nat) (recordFileLanguage : Nat → String → Bool)
    (st : IndexingFileIds) (fileName : String) : Nat × IndexingFileIds :=
  match st.fileIds.find? (fun p => p.1 == fileName) with
  | some p => (p.2, st)
  | none =>
    let fileId := recordFile fileName
    let _e1 : Unit := if fileId = 0 then newErrorNoThrow "getLastError" else ()
    let result := recordFileLanguage fileId "typescript"
    let _e2 : Unit := if result = false then newErrorNoThrow "getLastError" else ()
    (fileId, { fileIds := st.fileIds ++ [(fileName, fileId)] })

-- ## The store (spec-modelled; claims C1, C6, C8)

/-- Modelled from the spec: the SourcetrailDB store write API (spec section 6)
is an external collaborator not present under src/.  Following the spec
section 3 invariant, recordSymbol upserts by NameHierarchy (same hierarchy,
same id, no duplicate row) and recordSymbolKind / recordSymbolDefinitionKind
never duplicate an existing row.  Ids start at 1 because 0 is the failure
sentinel; the model itself never fails.  All tables are append-only lists. -/
structure Store where
  nextSymbolId : Nat
  symbols : List (NameHierarchy × Nat)
  kinds : List (Nat × SymbolKind)
  defKinds : List (Nat × DefinitionKind)
  scopes : List (Nat × SourceRange)
  locations : List (Nat × SourceRange)
  nextReferenceId : Nat
  refs : List (Nat × Nat × Nat × ReferenceKind)
  nextFileId : Nat
  files : List (String × Nat)
  fileLanguages : List (Nat × String)
  deriving DecidableEq, Repr

def emptyStore : Store :=
  { nextSymbolId := 1
    symbols := []
    kinds := []
    defKinds := []
    scopes := []
    locations := []
    nextReferenceId := 1
    refs := []
    nextFileId := 1
    files := []
    fileLanguages := [] }

/-- Look up the id recorded for a hierarchy, if any. -/
def Store.lookupSymbol (s : Store) (h : NameHierarchy) : Option Nat :=
  (s.symbols.find? (fun p => p.1 == h)).map (fun p => p.2)

/-- Modelled from the spec: recordSymbol(hierarchy) upserts — an already
present hierarchy yields the existing id and leaves the store unchanged. -/
def Store.recordSymbol (s : Store) (h : NameHierarchy) : Nat × Store :=
  match s.lookupSymbol h with
  | some id => (id, s)
  | none =>
    (s.nextSymbolId,
      { s with
        symbols := s.symbols ++ [(h, s.nextSymbolId)]
        nextSymbolId := s.nextSymbolId + 1 })

/-- Modelled from the spec: recordSymbolKind(id, kind) does not duplicate an
existing kind row. -/
def Store.recordSymbolKind (s : Store) (id : Nat) (k : SymbolKind) : Store :=
  if (id, k) ∈ s.kinds then s else { s with kinds := s.kinds ++ [(id, k)] }

/-- Modelled from the spec: recordSymbolDefinitionKind(id, kind) does not
duplicate an existing definition-kind row. -/
def Store.recordSymbolDefinitionKind (s : Store) (id : Nat) (d : DefinitionKind) : Store :=
  if (id, d) ∈ s.defKinds then s else { s with defKinds := s.defKinds ++ [(id, d)] }

/-- Modelled from the spec: recordSymbolScopeLocation appends a scope range
attachment for an existing symbol id. -/
def Store.recordSymbolScopeLocation (s : Store) (id : Nat) (r : SourceRange) : Store :=
  { s with scopes := s.scopes ++ [(id, r)] }

/-- Modelled from the spec: recordSymbolLocation appends a declaration
location attachment for an existing symbol id. -/
def Store.recordSymbolLocation (s : Store) (id : Nat) (r : SourceRange) : Store :=
  { s with locations := s.locations ++ [(id, r)] }

/-- Modelled from the spec: recordReference records a fresh directed edge on
every call — distinct calls are distinct edges, never merged (section 4.5). -/
def Store.recordReference (s : Store) (fromId toId : Nat) (k : ReferenceKind) : Nat × Store :=
  (s.nextReferenceId,
    { s with
      refs := s.refs ++ [(s.nextReferenceId, fromId, toId, k)]
      nextReferenceId := s.nextReferenceId + 1 })

/-- Modelled from the spec: recordFile appends a file row under a fresh id
(the id handed back is never 0 in the model). -/
def Store.recordFile (s : Store) (path : String) : Nat × Store :=
  (s.nextFileId,
    { s with
      files := s.files ++ [(path, s.nextFileId)]
      nextFileId := s.nextFileId + 1 })

/-- Modelled from the spec: recordFileLanguage appends a language tag row. -/
def Store.recordFileLanguage (s : Store) (id : Nat) (lang : String) : Bool × Store :=
  (true, { s with fileLanguages := s.fileLanguages ++ [(id, lang)] })

-- ## Symbol recording as performed by recordPackage / recordModule (claim C1)

/-- The record sequence shared by recordPackage and recordModule
(src/unnamed/part_000 lines 890-938): recordSymbol(name), then
recordSymbolDefinitionKind(id, EXPLICIT-or-given), then
recordSymbolKind(id, kind).  The failure checks of the source are
value-discarding new Error expressions (see newErrorNoThrow) and the store
model never fails, so they do not appear. -/
def recordSymbolFull (s : Store) (h : NameHierarchy) (k : SymbolKind)
    (d : DefinitionKind) : Nat × Store :=
  let r := s.recordSymbol h
  let s1 := r.2.recordSymbolDefinitionKind r.1 d
  let s2 := s1.recordSymbolKind r.1 k
  (r.1, s2)

/-- Number of symbol rows recorded for a hierarchy. -/
def symbolRowsFor (s : Store) (h : NameHierarchy) : Nat :=
  (s.symbols.filter (fun p => p.1 == h)).length

/-- Number of kind rows recorded for a symbol id. -/
def kindRowsFor (s : Store) (id : Nat) : Nat :=
  (s.kinds.filter (fun p => p.1 == id)).length

/-- Number of definition-kind rows recorded for a symbol id. -/
def defKindRowsFor (s : Store) (id : Nat) : Nat :=
  (s.defKinds.filter (fun p => p.1 == id)).length

/-- Bookkeeping invariant of the store model: every id occurring in the
symbol, kind and definition-kind tables is below the next fresh id. -/
def StoreBounded (s : Store) : Prop :=
  (∀ p ∈ s.symbols, p.2 < s.nextSymbolId) ∧
  (∀ p ∈ s.kinds, p.1 < s.nextSymbolId) ∧
  (∀ p ∈ s.defKinds, p.1 < s.nextSymbolId)

instance (s : Store) : Decidable (StoreBounded s) := by
  unfold StoreBounded
  infer_instance

-- ## Comment folder (claims C4 and C5)

/-- Whitespace characters of the JavaScript regular-expression class
backslash-s (ECMA-262 WhiteSpace and LineTerminator code points). -/
def isJsWhitespace (c : Char) : Bool :=
  c = ' ' || c = '\t' || c = '\n' || c = '\r' || c = '\x0b' || c = '\x0c' ||
  c = ' ' || c = ' ' || (0x2000 ≤ c.toNat && c.toNat ≤ 0x200a) ||
  c = ' ' || c = ' ' || c = ' ' || c = ' ' ||
  c = '　' || c = '﻿'

/-- Line terminators, which the JavaScript regular-expression dot does not
match. -/
def isLineTerminator (c : Char) : Bool :=
  c = '\n' || c = '\r' || c = ' ' || c = ' '

/-- Strips a literal character sequence from the front of a character list,
or fails. -/
def stripLead : List Char → List Char → Option (List Char)
  | [], cs => some cs
  | _ :: _, [] => none
  | p :: ps, c :: cs => if c = p then stripLead ps cs else none

/-- Matcher for the regular-expression tail dot-star followed by an optional
carriage return and end of input: the input is a run of non-line-terminator
characters, optionally ending in a carriage return. -/
def dotStarCrEnd (cs : List Char) : Bool :=
  cs.all (fun c => !isLineTerminator c) ||
  (match cs.getLast? with
   | some c =>
     if c = '\r' then cs.dropLast.all (fun c => !isLineTerminator c) else false
   | none => false)

/-- Matcher (with backtracking) for whitespace-star followed by the
dotStarCrEnd tail. -/
def wsStarThen : List Char → Bool
  | [] => dotStarCrEnd []
  | c :: cs => dotStarCrEnd (c :: cs) || (isJsWhitespace c && wsStarThen cs)

/-- Matcher for the optional group of the region regular expression after the
word region: either end of input, or one-or-more whitespace followed by a
label, with an optional trailing carriage return.  (The skip branch of the
optional group only accepts the empty input or a lone carriage return; the
latter is also accepted by the group branch, so only the empty case is
separate.) -/
def regionTail : List Char → Bool
  | [] => true
  | c :: cs => isJsWhitespace c && wsStarThen cs

/-- The regionDelimiterRegExp test of src/unnamed/part_000 lines 100-103:
caret backslash-s-star slash slash backslash-s-star hash (end)? region
(whitespace label)? (carriage return)? dollar.  isRegionDelimiter(lineText)
is its exec result, used only for truthiness. -/
def isRegionDelimiter (lineText : String) : Bool :=
  let cs0 := lineText.data.dropWhile isJsWhitespace
  match stripLead ['/', '/'] cs0 with
  | none => false
  | some cs1 =>
    let cs2 := cs1.dropWhile isJsWhitespace
    match stripLead ['#'] cs2 with
    | none => false
    | some cs3 =>
      let cs4 := (stripLead ['e', 'n', 'd'] cs3).getD cs3
      match stripLead ['r', 'e', 'g', 'i', 'o', 'n'] cs4 with
      | none => false
      | some cs5 => regionTail cs5

/-- Kinds of comment trivia handled by the folder (ts.SyntaxKind
SingleLineCommentTrivia and MultiLineCommentTrivia). -/
inductive CommentKind where
  | singleLine
  | multiLine
  deriving DecidableEq, Repr

/-- One leading comment range as handed out by the front-end: kind plus byte
offsets pos and end (endPos here, since end is a keyword). -/
structure CommentRange where
  kind : CommentKind
  pos : Nat
  endPos : Nat
  deriving DecidableEq, Repr

/-- JavaScript String.slice(pos, end) on an in-range, ordered pair. -/
def jsSlice (s : String) (a b : Nat) : String :=
  String.mk ((s.data.drop a).take (b - a))

/-- The mutable locals of recordAtomicSourceRangesForMultilineComments
(src/unnamed/part_000 lines 105-163) plus the sequence of ranges passed to
writer.recordAtomicSourceRange, in call order.  The source initialises the
two position fields to -1; they are only ever read when
singleLineCommentCount exceeds 1, by which point both have been assigned, so
they are carried as Nat with initial value 0. -/
structure CommentFoldState where
  firstSingleLineCommentStart : Nat
  lastSingleLineCommentEnd : Nat
  singleLineCommentCount : Nat
  recorded : List SourceRange
  deriving DecidableEq, Repr

/-- combineAndAddMultipleSingleLineComments (src/unnamed/part_000 lines
149-162): only spans of two or more consecutive single line comments are
recorded.  The position-to-line/character conversion
getLineAndCharacterOfPosition of the front-end is abstracted as lcOf. -/
def combineAndAdd (fileId : Nat) (lcOf : Nat → LineAndCharacter)
    (st : CommentFoldState) : CommentFoldState :=
  if st.singleLineCommentCount > 1 then
    { st with
      recorded := st.recorded ++
        [toSourceRangeBuilder fileId (lcOf st.firstSingleLineCommentStart)
          (lcOf st.lastSingleLineCommentEnd)] }
  else st

/-- One iteration of the comment loop of
recordAtomicSourceRangesForMultilineComments (src/unnamed/part_000 lines
117-146): a single-line comment whose text matches the region delimiter
flushes the pending run and resets the count; any other single-line comment
extends the run; a multi-line comment flushes the pending run, records its
own range and resets the count. -/
def commentFoldStep (fileId : Nat) (lcOf : Nat → LineAndCharacter)
    (sourceText : String) (st : CommentFoldState) (c : CommentRange) :
    CommentFoldState :=
  match c.kind with
  | CommentKind.singleLine =>
    let commentText := jsSlice sourceText c.pos c.endPos
    if isRegionDelimiter commentText then
      let st1 := combineAndAdd fileId lcOf st
      { st1 with singleLineCommentCount := 0 }
    else
      let st1 :=
        if st.singleLineCommentCount = 0 then
          { st with firstSingleLineCommentStart := c.pos }
        else st
      { st1 with
        lastSingleLineCommentEnd := c.endPos
        singleLineCommentCount := st1.singleLineCommentCount + 1 }
  | CommentKind.multiLine =>
    let st1 := combineAndAdd fileId lcOf st
    { st1 with
      recorded := st1.recorded ++
        [toSourceRangeBuilder fileId (lcOf c.pos) (lcOf c.endPos)]
      singleLineCommentCount := 0 }

/-- Initial fold state (all counters zero, nothing recorded). -/
def initialCommentFoldState : CommentFoldState :=
  { firstSingleLineCommentStart := 0
    lastSingleLineCommentEnd := 0
    singleLineCommentCount := 0
    recorded := [] }

/-- recordAtomicSourceRangesForMultilineComments (src/unnamed/part_000 lines
105-163) for a node whose leading comment ranges are the given list: the
loop over the comments followed by the final flush.  The result is the list
of atomic source ranges recorded, in order. -/
def recordAtomicSourceRangesForMultilineComments (fileId : Nat)
    (lcOf : Nat → LineAndCharacter) (sourceText : String)
    (comments : List CommentRange) : List SourceRange :=
  (combineAndAdd fileId lcOf
    (comments.foldl (commentFoldStep fileId lcOf sourceText)
      initialCommentFoldState)).recorded

-- ## Path utilities (src/src/util/path.ts; claim C8)

/-- JavaScript String.charCodeAt: the character code at an index, or -1 as a
stand-in for NaN when out of range (NaN compares unequal to every code and
fails every range test, exactly like -1 against the non-negative codes). -/
def jsCharCodeAt (s : String) (i : Nat) : Int :=
  match s.data.get? i with
  | some c => (c.toNat : Int)
  | none => -1

/-- JavaScript String.substring / String.slice on ordered in-range
arguments. -/
def jsSubstring (s : String) (a b : Nat) : String :=
  String.mk ((s.data.drop a).take (b - a))

/-- JavaScript one-argument String.substring(a): the suffix from index a. -/
def jsSubstringFrom (s : String) (a : Nat) : String :=
  String.mk (s.data.drop a)

/-- Does the character list start with the given literal sequence? -/
def listStartsWith : List Char → List Char → Bool
  | _, [] => true
  | [], _ :: _ => false
  | c :: cs, p :: ps => c = p && listStartsWith cs ps

/-- Index (counting from the accumulator) of the first occurrence of the
pattern in the character list, if any. -/
def findSubAux (pat : List Char) : List Char → Nat → Option Nat
  | cs, i =>
    if listStartsWith cs pat then some i
    else
      match cs with
      | [] => none
      | _ :: cs1 => findSubAux pat cs1 (i + 1)

/-- JavaScript String.indexOf(pattern, from): first index at or after from
where the pattern occurs, or -1. -/
def jsIndexOfFrom (s : String) (pat : String) (from0 : Nat) : Int :=
  match findSubAux pat.data (s.data.drop from0) 0 with
  | some k => ((from0 + k : Nat) : Int)
  | none => -1

/-- JavaScript String.split with the one-character separator used by the
path code (the directorySeparator slash): an empty string yields one empty
field, adjacent separators yield empty fields. -/
def jsSplitChar (sep : Char) : List Char → List String
  | [] => [""]
  | c :: cs =>
    if c = sep then "" :: jsSplitChar sep cs
    else
      match jsSplitChar sep cs with
      | [] => [String.mk [c]]
      | s :: rest => String.mk (c :: s.data) :: rest

/-- JavaScript Array.join(sep). -/
def jsJoin (sep : String) : List String → String
  | [] => ""
  | [x] => x
  | x :: xs => x ++ sep ++ jsJoin sep xs

/-- normalizeSlashes (path.ts line 766): every backslash becomes a slash. -/
def normalizeSlashes (path : String) : String :=
  String.mk (path.data.map (fun c => if c = '\\' then '/' else c))

/-- isVolumeCharacter (path.ts lines 356-361) on a character code. -/
def isVolumeCharacter (charCode : Int) : Bool :=
  (97 ≤ charCode && charCode ≤ 122) || (65 ≤ charCode && charCode ≤ 90)

/-- getFileUrlVolumeSeparatorEnd (path.ts lines 363-374): the end of a colon
or percent-encoded colon after a volume character in a file URL, or -1. -/
def getFileUrlVolumeSeparatorEnd (url : String) (start : Nat) : Int :=
  let ch0 := jsCharCodeAt url start
  if ch0 = 58 then ((start + 1 : Nat) : Int)
  else if ch0 = 37 && jsCharCodeAt url (start + 1) = 51 then
    let ch2 := jsCharCodeAt url (start + 2)
    if ch2 = 97 || ch2 = 65 then ((start + 3 : Nat) : Int) else -1
  else -1

/-- The URL arm of getEncodedRootLength (path.ts lines 405-444), reached when
the POSIX/UNC and DOS arms fell through: scheme-separator search, authority,
file-URL volume handling; URL roots are returned bitwise-complemented
(JavaScript tilde x equals -x-1). -/
def getEncodedRootLengthUrl (path : String) : Int :=
  let schemeEnd := jsIndexOfFrom path "://" 0
  if schemeEnd ≠ -1 then
    let authorityStart := schemeEnd.toNat + 3
    let authorityEnd := jsIndexOfFrom path "/" authorityStart
    if authorityEnd ≠ -1 then
      let scheme := jsSubstring path 0 schemeEnd.toNat
      let authority := jsSubstring path authorityStart authorityEnd.toNat
      if scheme = "file" && (authority = "" || authority = "localhost") &&
          isVolumeCharacter (jsCharCodeAt path (authorityEnd.toNat + 1)) then
        let volumeSeparatorEnd := getFileUrlVolumeSeparatorEnd path (authorityEnd.toNat + 2)
        if volumeSeparatorEnd ≠ -1 then
          if jsCharCodeAt path volumeSeparatorEnd.toNat = 47 then
            -(volumeSeparatorEnd + 1) - 1
          else if volumeSeparatorEnd = (path.length : Int) then
            -volumeSeparatorEnd - 1
          else -(authorityEnd + 1) - 1
        else -(authorityEnd + 1) - 1
      else -(authorityEnd + 1) - 1
    else -(path.length : Int) - 1
  else 0

/-- getEncodedRootLength (path.ts lines 380-445): length of the root part of
a path; character code 47 is the slash, 92 the backslash, 58 the colon. -/
def getEncodedRootLength (path : String) : Int :=
  if path = "" then 0
  else
    let ch0 := jsCharCodeAt path 0
    if ch0 = 47 || ch0 = 92 then
      if jsCharCodeAt path 1 ≠ ch0 then 1
      else
        let p1 := jsIndexOfFrom path (if ch0 = 47 then "/" else "\\") 2
        if p1 < 0 then (path.length : Int)
        else p1 + 1
    else if isVolumeCharacter ch0 && jsCharCodeAt path 1 = 58 then
      let ch2 := jsCharCodeAt path 2
      if ch2 = 47 || ch2 = 92 then 3
      else if path.length = 2 then 2
      else getEncodedRootLengthUrl path
    else getEncodedRootLengthUrl path

/-- getRootLength (path.ts lines 472-475). -/
def getRootLength (path : String) : Nat :=
  let rootLength := getEncodedRootLength path
  (if rootLength < 0 then -rootLength - 1 else rootLength).toNat

/-- isAnyDirectorySeparator (path.ts lines 269-273). -/
def isAnyDirectorySeparator (charCode : Int) : Bool :=
  charCode = 47 || charCode = 92

/-- hasTrailingDirectorySeparator (path.ts lines 348-352). -/
def hasTrailingDirectorySeparator (path : String) : Bool :=
  path.length > 0 && isAnyDirectorySeparator (jsCharCodeAt path (path.length - 1))

/-- ensureTrailingDirectorySeparator (path.ts lines 956-962). -/
def ensureTrailingDirectorySeparator (path : String) : String :=
  if !hasTrailingDirectorySeparator path then path ++ "/" else path

/-- combinePaths (path.ts lines 812-827), with the variadic tail as a list. -/
def combinePaths (path : String) (paths : List String) : String :=
  let path0 := if path ≠ "" then normalizeSlashes path else path
  paths.foldl
    (fun acc relativePath =>
      if relativePath = "" then acc
      else
        let rel := normalizeSlashes relativePath
        if acc = "" || getRootLength rel ≠ 0 then rel
        else ensureTrailingDirectorySeparator acc ++ rel)
    path0

/-- pathComponents (path.ts lines 701-706): root plus the slash-separated
rest, with one trailing empty field dropped. -/
def pathComponents (path : String) (rootLength : Nat) : List String :=
  let root := jsSubstring path 0 rootLength
  let rest := jsSplitChar '/' (jsSubstringFrom path rootLength).data
  let rest1 :=
    if rest.length ≠ 0 && rest.getLast? = some "" then rest.dropLast else rest
  root :: rest1

/-- getPathComponents (path.ts lines 738-741); the only call site relevant
here uses the default empty currentDirectory. -/
def getPathComponents (path : String) (currentDirectory : String) : List String :=
  let path1 := combinePaths currentDirectory [path]
  pathComponents path1 (getRootLength path1)

/-- reducePathComponents (path.ts lines 774-792): drop empty and dot
components and cancel dot-dot components against preceding ones. -/
def reducePathComponents (components : List String) : List String :=
  match components with
  | [] => []
  | root :: rest =>
    rest.foldl
      (fun reduced component =>
        if component = "" then reduced
        else if component = "." then reduced
        else if component = ".." then
          if reduced.length > 1 then
            if reduced.getLast? ≠ some ".." then reduced.dropLast
            else reduced ++ [component]
          else if reduced.head?.getD "" ≠ "" then reduced
          else reduced ++ [component]
        else reduced ++ [component])
      [root]

/-- getPathFromPathComponents (path.ts lines 753-759); an empty root behaves
like the JavaScript falsy shortcut (empty string stays empty). -/
def getPathFromPathComponents (comps : List String) : String :=
  if comps.length = 0 then ""
  else
    let root :=
      match comps.head? with
      | some r => if r = "" then r else ensureTrailingDirectorySeparator r
      | none => ""
    root ++ jsJoin "/" (comps.drop 1)

/-- normalizePath (path.ts lines 873-881). -/
def normalizePath (path : String) : String :=
  let path1 := normalizeSlashes path
  let normalized :=
    getPathFromPathComponents (reducePathComponents (getPathComponents path1 ""))
  if normalized ≠ "" && hasTrailingDirectorySeparator path1 then
    ensureTrailingDirectorySeparator normalized
  else normalized

/-- getFileId of the writer draft run against the modelled store (records
always succeed there): on a memoisation miss it asks the store to record the
file and its language tag and memoises the result; the map key is the raw
file name exactly as in the source (src/unnamed/part_000 lines 721-737),
with no normalisation. -/
def getFileIdStore (st : IndexingFileIds) (s : Store) (fileName : String) :
    Nat × IndexingFileIds × Store :=
  match st.fileIds.find? (fun p => p.1 == fileName) with
  | some p => (p.2, st, s)
  | none =>
    let r := s.recordFile fileName
    let r2 := r.2.recordFileLanguage r.1 "typescript"
    (r.1, { fileIds := st.fileIds ++ [(fileName, r.1)] }, r2.2)

-- ## Module/package hierarchy deriver (claim C6)

/-- recordPackage of the writer draft (src/unnamed/part_000 lines 890-907):
recordSymbol, recordSymbolDefinitionKind EXPLICIT, recordSymbolKind PACKAGE.
The failure checks of the source are value-discarding new Error expressions
and the modelled store never fails. -/
def recordPackage (s : Store) (name : NameHierarchy) : Nat × Store :=
  let r := s.recordSymbol name
  let s1 := r.2.recordSymbolDefinitionKind r.1 DefinitionKind.EXPLICIT
  let s2 := s1.recordSymbolKind r.1 SymbolKind.PACKAGE
  (r.1, s2)

/-- recordModule of the writer draft (src/unnamed/part_000 lines 909-938):
recordSymbol, recordSymbolDefinitionKind EXPLICIT, recordSymbolKind MODULE,
recordSymbolScopeLocation with the whole-file range.  The range
nodeToSourceRange(sf, sfFileId) computed from the source file node is passed
in as fileScope. -/
def recordModule (s : Store) (name : NameHierarchy) (fileScope : SourceRange) :
    Nat × Store :=
  let r := s.recordSymbol name
  let s1 := r.2.recordSymbolDefinitionKind r.1 DefinitionKind.EXPLICIT
  let s2 := s1.recordSymbolKind r.1 SymbolKind.MODULE
  let s3 := s2.recordSymbolScopeLocation r.1 fileScope
  (r.1, s3)

/-- The loop body of sourceFileToModuleSymbolId (src/unnamed/part_000 lines
1040-1060), recursing over the filename parts: for each index whose part is
the node_modules marker, record a package symbol over the two-element slice
starting there and an INCLUDE reference from the package to the module.
The slice filenameParts.slice(i, i + 2) is the two-element take of the
remaining suffix. -/
def recordPackagesFrom (fileScope : SourceRange) (moduleId : Nat) :
    Store → List String → Store
  | s, [] => s
  | s, p :: rest =>
    let s1 :=
      if p = "node_modules" then
        let r := recordPackage s { sep := "/", elems := (p :: rest).take 2 }
        let r2 := r.2.recordReference r.1 moduleId ReferenceKind.INCLUDE
        r2.2
      else s
    recordPackagesFrom fileScope moduleId s1 rest

/-- sourceFileToModuleSymbolId of the writer draft (src/unnamed/part_000
lines 1028-1062): split the file name (made relative to the project root by
the external path.relative, passed in here as relFileName) on the path
separator, record a module symbol over the whole part list with the
file-spanning scope, then walk the parts recording package symbols and
INCLUDE edges for node_modules segments.  The scope range for both module
and packages is the same whole-file range. -/
def sourceFileToModuleSymbolId (s : Store) (relFileName : String)
    (fileScope : SourceRange) : Nat × Store :=
  let filenameParts := jsSplitChar '/' relFileName.data
  let name : NameHierarchy := { sep := "/", elems := filenameParts }
  let r := recordModule s name fileScope
  let s1 := recordPackagesFrom fileScope r.1 r.2 filenameParts
  (r.1, s1)

-- ## Persistence session transactions (claims C9 and C10)

/-- The store calls PerformIndexing makes, as observable events.  A write
event stands for any single record call of the indexing pass, identified by
an abstract payload. -/
inductive StoreEvent where
  | beginTx
  | commitTx
  | clearEv
  | optimizeEv
  | writeEv (item : Nat)
  deriving DecidableEq, Repr

/-- Modelled from the spec: the transactional store visible to readers.
committed is the durable content; pending is the open transaction, if any,
holding a wipe flag (a clear issued inside the transaction) and buffered
writes.  Outside a transaction, clear and writes apply immediately
(autocommit); inside, they take effect only at commitTransaction. -/
structure TxStore where
  committed : List Nat
  pending : Option (Bool × List Nat)
  deriving DecidableEq, Repr

/-- One store call against the transactional store model. -/
def TxStore.applyEvent (s : TxStore) (e : StoreEvent) : TxStore :=
  match e with
  | StoreEvent.beginTx => { s with pending := some (false, []) }
  | StoreEvent.commitTx =>
    match s.pending with
    | some (wipe, buf) =>
      { committed := (if wipe then [] else s.committed) ++ buf, pending := none }
    | none => s
  | StoreEvent.clearEv =>
    match s.pending with
    | some _ => { s with pending := some (true, []) }
    | none => { s with committed := [] }
  | StoreEvent.optimizeEv => s
  | StoreEvent.writeEv item =>
    match s.pending with
    | some (wipe, buf) => { s with pending := some (wipe, buf ++ [item]) }
    | none => { s with committed := s.committed ++ [item] }

/-- Run a sequence of store calls. -/
def TxStore.run (s : TxStore) : List StoreEvent → TxStore
  | [] => s
  | e :: es => TxStore.run (s.applyEvent e) es

/-- The store-call trace of PerformIndexing in the transactional writer
draft (src/unnamed/part_000 lines 1131-1167): beginTransaction, clear when
the flag is set, commitTransaction, optimizeDatabaseMemory, then
beginTransaction, the record calls of the indexing pass (diagnostics and
per-file work, abstracted as write events), commitTransaction,
optimizeDatabaseMemory. -/
def performIndexingTrace (clear : Bool) (indexingWrites : List Nat) :
    List StoreEvent :=
  [StoreEvent.beginTx] ++ (if clear then [StoreEvent.clearEv] else []) ++
    [StoreEvent.commitTx, StoreEvent.optimizeEv, StoreEvent.beginTx] ++
    indexingWrites.map StoreEvent.writeEv ++
    [StoreEvent.commitTx, StoreEvent.optimizeEv]

/-- The store-call trace of PerformIndexing in the earlier writer draft
(src/unnamed/part_001 lines 335-349): clear when the flag is set, then the
record calls of the indexing pass — no transaction calls at all. -/
def performIndexingTraceDraft (clear : Bool) (indexingWrites : List Nat) :
    List StoreEvent :=
  (if clear then [StoreEvent.clearEv] else []) ++
    indexingWrites.map StoreEvent.writeEv

-- ## Variable declarations in visitTypeNodes (claim C7)

/-- Scope kinds for the enclosing lexical chain of a declaration, as far as
the ambient classification is concerned. -/
inductive ScopeKind where
  | sourceFileScope
  | moduleScope
  | blockScope
  | functionScope
  deriving DecidableEq, Repr

/-- The data the VariableDeclaration arm of visitTypeNodes reads from a
node: the front-end flags word, the declared name text, the range of the
name node and of the parent node, plus (for the structural classification
the spec asks about) the kinds of the enclosing scopes. -/
structure VarDeclNode where
  flags : Nat
  name : String
  nameRange : SourceRange
  parentRange : SourceRange
  enclosingScopes : List ScopeKind
  deriving DecidableEq, Repr

/-- A recorded symbol as assembled by a createSymbol builder chain. -/
structure SymbolRecord where
  sep : String
  hierarchy : List String
  kind : SymbolKind
  defKind : DefinitionKind
  location : SourceRange
  signature : SourceRange
  deriving DecidableEq, Repr

/-- The VariableDeclaration / BindingElement / PropertyAssignment arm of
visitTypeNodes (src/unnamed/part_000 lines 332-363): when bit 23 of
node.flags is set (the undocumented ambient flag), record an explicit
GLOBAL_VARIABLE symbol named by the declared name, located at the name node
and with the parent node span as signature; otherwise record nothing. -/
def visitVariableDeclaration (node : VarDeclNode) : Option SymbolRecord :=
  if node.flags &&& (1 <<< 23) ≠ 0 then
    some
      { sep := "."
        hierarchy := [node.name]
        kind := SymbolKind.GLOBAL_VARIABLE
        defKind := DefinitionKind.EXPLICIT
        location := node.nameRange
        signature := node.parentRange }
  else none

/-- Modelled from the spec: the structural ambient/global classification of
section 4.4 and the glossary — a declaration is ambient/global-scoped when
every enclosing scope is a source-file or module scope (no block or function
scope), evaluated over the enclosing scope kinds. -/
def structurallyAmbient (node : VarDeclNode) : Bool :=
  node.enclosingScopes.all
    (fun k => k = ScopeKind.sourceFileScope || k = ScopeKind.moduleScope)

/-- The global-variable symbols produced for a file consisting of variable
declaration nodes: the traversal visits every node once and the
VariableDeclaration arm is the only emitter for this shape. -/
def fileGlobalVariableSymbols (nodes : List VarDeclNode) : List SymbolRecord :=
  nodes.filterMap visitVariableDeclaration

-- ## Builder-draft module/package deriver (claim C6)

/-- The package chain of the builder draft (src/unnamed/part_000 lines
527-535, src/src/indexing_logic.ts lines 293-301): createSymbol over the
slice, explicitly(), ofType(PACKAGE), withScope(whole-file range),
desugared to the store calls exactly as the writer draft desugars the
corresponding chains — unlike the writer draft recordPackage, the builder
chain does attach the file-spanning scope. -/
def recordPackageBuilder (s : Store) (name : NameHierarchy)
    (fileScope : SourceRange) : Nat × Store :=
  let r := s.recordSymbol name
  let s1 := r.2.recordSymbolDefinitionKind r.1 DefinitionKind.EXPLICIT
  let s2 := s1.recordSymbolKind r.1 SymbolKind.PACKAGE
  let s3 := s2.recordSymbolScopeLocation r.1 fileScope
  (r.1, s3)

/-- The node_modules loop of the builder draft sourceFileToModuleSymbol
(src/unnamed/part_000 lines 527-536), recursing over the filename parts. -/
def recordPackagesFromBuilder (fileScope : SourceRange) (moduleId : Nat) :
    Store → List String → Store
  | s, [] => s
  | s, p :: rest =>
    let s1 :=
      if p = "node_modules" then
        let r := recordPackageBuilder s
          { sep := "/", elems := (p :: rest).take 2 } fileScope
        let r2 := r.2.recordReference r.1 moduleId ReferenceKind.INCLUDE
        r2.2
      else s
    recordPackagesFromBuilder fileScope moduleId s1 rest

/-- sourceFileToModuleSymbol of the builder draft (src/unnamed/part_000
lines 514-538, src/src/indexing_logic.ts lines 280-304): module symbol over
the split relative file name with the whole-file scope, then the
node_modules package loop; the builder chains are desugared to store calls
as in the writer draft. -/
def sourceFileToModuleSymbol (s : Store) (relFileName : String)
    (fileScope : SourceRange) : Nat × Store :=
  let filenameParts := jsSplitChar '/' relFileName.data
  let name : NameHierarchy := { sep := "/", elems := filenameParts }
  let r := recordModule s name fileScope
  let s1 := recordPackagesFromBuilder fileScope r.1 r.2 filenameParts
  (r.1, s1)

-- ## Statement abbreviations used by the claim theorems and their witnesses

/-- Conclusion of claim C1: recording the same hierarchy, kind and
definition kind twice yields the same id both times, exactly one symbol row
for the hierarchy and exactly one kind and definition-kind row for the id. -/
def C1Spec (s : Store) (h : NameHierarchy) (k : SymbolKind)
    (d : DefinitionKind) : Prop :=
  (recordSymbolFull (recordSymbolFull s h k d).2 h k d).1 =
    (recordSymbolFull s h k d).1 ∧
  symbolRowsFor (recordSymbolFull (recordSymbolFull s h k d).2 h k d).2 h = 1 ∧
  kindRowsFor (recordSymbolFull (recordSymbolFull s h k d).2 h k d).2
    (recordSymbolFull s h k d).1 = 1 ∧
  defKindRowsFor (recordSymbolFull (recordSymbolFull s h k d).2 h k d).2
    (recordSymbolFull s h k d).1 = 1 ∧
  (recordSymbolFull (recordSymbolFull s h k d).2 h k d).2.symbols =
    (recordSymbolFull s h k d).2.symbols

/-- Start offset of the first comment of a run (0 when the run is empty). -/
def runHeadPos : List CommentRange → Nat
  | [] => 0
  | c :: _ => c.pos

/-- End offset of the last comment of a run (0 when the run is empty). -/
def runLastEnd : List CommentRange → Nat
  | [] => 0
  | [c] => c.endPos
  | _ :: c :: cs => runLastEnd (c :: cs)

/-- Is every item of the list a single-line comment that is not a region
delimiter (with respect to the given source text)? -/
def isPlainSingleLineRun (text : String) (run : List CommentRange) : Bool :=
  run.all (fun c =>
    (c.kind == CommentKind.singleLine) &&
    !isRegionDelimiter (jsSlice text c.pos c.endPos))

/-- Does the list stop a pending single-line run at its head?  True when it
is empty, starts with a multi-line comment, or starts with a region
delimiter single-line comment — i.e. when a run ending right before it is
maximal. -/
def endsRun (text : String) : List CommentRange → Bool
  | [] => true
  | r :: _ =>
    match r.kind with
    | CommentKind.multiLine => true
    | CommentKind.singleLine => isRegionDelimiter (jsSlice text r.pos r.endPos)

/-- Conclusion of claim C4 for one maximal run: the output on the run
followed by the remainder is one atomic range spanning the run (only when
the run has two or more comments) followed by the output on the
remainder. -/
def C4RunSpec (fileId : Nat) (lcOf : Nat → LineAndCharacter) (text : String)
    (run rest : List CommentRange) : Prop :=
  recordAtomicSourceRangesForMultilineComments fileId lcOf text (run ++ rest) =
    (if 2 ≤ run.length then
      [toSourceRangeBuilder fileId (lcOf (runHeadPos run)) (lcOf (runLastEnd run))]
    else []) ++
    recordAtomicSourceRangesForMultilineComments fileId lcOf text rest

/-- States of the comment fold that are indistinguishable for the rest of a
run: same pending count, same output so far, and, when a run is pending,
the same pending offsets. -/
def FoldStateEquiv (st st2 : CommentFoldState) : Prop :=
  st.singleLineCommentCount = st2.singleLineCommentCount ∧
  st.recorded = st2.recorded ∧
  (st.singleLineCommentCount ≠ 0 →
    st.firstSingleLineCommentStart = st2.firstSingleLineCommentStart ∧
    st.lastSingleLineCommentEnd = st2.lastSingleLineCommentEnd)

/-- Store growth: lookups keep succeeding with the same id, and kind, scope
and reference rows are preserved. -/
def StoreLE (s t : Store) : Prop :=
  (∀ h id, s.lookupSymbol h = some id → t.lookupSymbol h = some id) ∧
  (∀ x ∈ s.kinds, x ∈ t.kinds) ∧
  (∀ x ∈ s.scopes, x ∈ t.scopes) ∧
  (∀ x ∈ s.refs, x ∈ t.refs)

/-- A module symbol with the given hierarchy elements is present, kinded
MODULE and carrying the whole-file scope. -/
def ModuleRecorded (s : Store) (parts : List String) (mid : Nat)
    (fileScope : SourceRange) : Prop :=
  s.lookupSymbol { sep := "/", elems := parts } = some mid ∧
  (mid, SymbolKind.MODULE) ∈ s.kinds ∧
  (mid, fileScope) ∈ s.scopes

/-- A package symbol over the given segment pair is present, kinded PACKAGE,
carrying the whole-file scope, with an INCLUDE reference from the package to
the module. -/
def PackageRecordedScoped (s : Store) (seg : List String) (mid : Nat)
    (fileScope : SourceRange) : Prop :=
  ∃ pid, s.lookupSymbol { sep := "/", elems := seg } = some pid ∧
    (pid, SymbolKind.PACKAGE) ∈ s.kinds ∧
    (pid, fileScope) ∈ s.scopes ∧
    ∃ rid, (rid, pid, mid, ReferenceKind.INCLUDE) ∈ s.refs

/-- A package symbol over the given segment pair is present, kinded PACKAGE,
with an INCLUDE reference from the package to the module (no scope row
required). -/
def PackageRecordedUnscoped (s : Store) (seg : List String) (mid : Nat) : Prop :=
  ∃ pid, s.lookupSymbol { sep := "/", elems := seg } = some pid ∧
    (pid, SymbolKind.PACKAGE) ∈ s.kinds ∧
    ∃ rid, (rid, pid, mid, ReferenceKind.INCLUDE) ∈ s.refs

/-- Concrete whole-file scope range used by the C6 example. -/
def c6FileScope : SourceRange :=
  { fileId := 1, startLine := 1, startCol := 1, endLine := 9, endCol := 1 }

/-- Concrete ambient top-level variable declaration node named X: bit 23 of
the flags word is set. -/
def ambientVarNode : VarDeclNode :=
  { flags := 1 <<< 23
    name := "X"
    nameRange := { fileId := 1, startLine := 1, startCol := 13, endLine := 1, endCol := 13 }
    parentRange := { fileId := 1, startLine := 1, startCol := 1, endLine := 1, endCol := 22 }
    enclosingScopes := [ScopeKind.sourceFileScope] }

/-- Concrete non-ambient local variable declaration node with the same name:
flags word zero, enclosed in a function scope. -/
def localVarNode : VarDeclNode :=
  { flags := 0
    name := "X"
    nameRange := { fileId := 1, startLine := 3, startCol := 7, endLine := 3, endCol := 7 }
    parentRange := { fileId := 1, startLine := 3, startCol := 3, endLine := 3, endCol := 12 }
    enclosingScopes := [ScopeKind.sourceFileScope, ScopeKind.functionScope] }

/-- Concrete top-level node that is ambient by the structural classification
(only file scope around it) but whose front-end flags word has bit 23
unset — e.g. a plain top-level script variable. -/
def plainTopLevelVarNode : VarDeclNode :=
  { flags := 0
    name := "X"
    nameRange := { fileId := 1, startLine := 1, startCol := 5, endLine := 1, endCol := 5 }
    parentRange := { fileId := 1, startLine := 1, startCol := 1, endLine := 1, endCol := 10 }
    enclosingScopes := [ScopeKind.sourceFileScope] }

/-- The store after a first recordSymbolFull call on a hierarchy not yet
present: the symbol row, a definition-kind row and a kind row appended, and
the fresh-id counter advanced. -/
def afterFirstRecord (s : Store) (h : NameHierarchy) (k : SymbolKind)
    (d : DefinitionKind) : Store :=
  { s with
    symbols := s.symbols ++ [(h, s.nextSymbolId)]
    nextSymbolId := s.nextSymbolId + 1
    defKinds := s.defKinds ++ [(s.nextSymbolId, d)]
    kinds := s.kinds ++ [(s.nextSymbolId, k)] }

/-- Conclusion of claim C9 as amended, for the transactional PerformIndexing
draft: the first transaction (begin, optional clear, commit) leaves the
committed store empty when the clear flag is set and untouched otherwise;
any interrupted prefix of the main indexing pass (only ws1 of the writes
executed, the final commit never reached) leaves the committed store in
exactly that first-boundary state; and the completed trace commits the
first-boundary state plus all indexing writes. -/
def C9Spec (init : TxStore) (clear : Bool) (ws1 ws2 : List Nat) : Prop :=
  (TxStore.run init
    ([StoreEvent.beginTx] ++ (if clear then [StoreEvent.clearEv] else []) ++
      [StoreEvent.commitTx])).committed =
    (if clear then [] else init.committed) ∧
  performIndexingTrace clear (ws1 ++ ws2) =
    ([StoreEvent.beginTx] ++ (if clear then [StoreEvent.clearEv] else []) ++
      [StoreEvent.commitTx, StoreEvent.optimizeEv, StoreEvent.beginTx] ++
      ws1.map StoreEvent.writeEv) ++
    (ws2.map StoreEvent.writeEv ++ [StoreEvent.commitTx, StoreEvent.optimizeEv]) ∧
  (TxStore.run init
    ([StoreEvent.beginTx] ++ (if clear then [StoreEvent.clearEv] else []) ++
      [StoreEvent.commitTx, StoreEvent.optimizeEv, StoreEvent.beginTx] ++
      ws1.map StoreEvent.writeEv)).committed =
    (if clear then [] else init.committed) ∧
  (TxStore.run init (performIndexingTrace clear (ws1 ++ ws2))).committed =
    (if clear then [] else init.committed) ++ (ws1 ++ ws2)

/-- Conclusion of claim C10: the first transaction and the first
store-optimisation request appear in the trace for either flag value; with
the clear flag false the first transaction is empty and the store is
unchanged, as a whole, at the first commit boundary. -/
def C10Spec (init : TxStore) (writes : List Nat) : Prop :=
  (∀ clear : Bool,
    performIndexingTrace clear writes =
      [StoreEvent.beginTx] ++ (if clear then [StoreEvent.clearEv] else []) ++
      [StoreEvent.commitTx, StoreEvent.optimizeEv] ++
      ([StoreEvent.beginTx] ++ writes.map StoreEvent.writeEv ++
        [StoreEvent.commitTx, StoreEvent.optimizeEv])) ∧
  performIndexingTrace false writes =
    [StoreEvent.beginTx, StoreEvent.commitTx, StoreEvent.optimizeEv,
      StoreEvent.beginTx] ++ writes.map StoreEvent.writeEv ++
      [StoreEvent.commitTx, StoreEvent.optimizeEv] ∧
  TxStore.run init [StoreEvent.beginTx, StoreEvent.commitTx] = init ∧
  (TxStore.run init
    [StoreEvent.beginTx, StoreEvent.commitTx, StoreEvent.optimizeEv]).committed =
    init.committed

/-- Conclusion of claim C6 for the builder-draft deriver, over the store
model started empty: the module symbol carries the split hierarchy, kind
MODULE and the whole-file scope; every node_modules index yields a
PACKAGE-kinded symbol over the two-element slice with the same scope and an
INCLUDE edge from the package to the module; and the number of reference
edges equals the number of node_modules occurrences (one edge each). -/
def C6BuilderSpec (relPath : String) (fileScope : SourceRange) : Prop :=
  ModuleRecorded (sourceFileToModuleSymbol emptyStore relPath fileScope).2
    (jsSplitChar '/' relPath.data)
    (sourceFileToModuleSymbol emptyStore relPath fileScope).1 fileScope ∧
  (∀ i : Nat, ∀ hi : i < (jsSplitChar '/' relPath.data).length,
    (jsSplitChar '/' relPath.data).get ⟨i, hi⟩ = "node_modules" →
    PackageRecordedScoped (sourceFileToModuleSymbol emptyStore relPath fileScope).2
      (((jsSplitChar '/' relPath.data).drop i).take 2)
      (sourceFileToModuleSymbol emptyStore relPath fileScope).1 fileScope) ∧
  (sourceFileToModuleSymbol emptyStore relPath fileScope).2.refs.length =
    (jsSplitChar '/' relPath.data).countP (fun p => p == "node_modules")

/-- Conclusion of claim C6 for the writer-draft deriver, over the store
model started empty: as in the builder draft, except that the package
symbols carry no scope row (recordPackage never records one). -/
def C6WriterSpec (relPath : String) (fileScope : SourceRange) : Prop :=
  ModuleRecorded (sourceFileToModuleSymbolId emptyStore relPath fileScope).2
    (jsSplitChar '/' relPath.data)
    (sourceFileToModuleSymbolId emptyStore relPath fileScope).1 fileScope ∧
  (∀ i : Nat, ∀ hi : i < (jsSplitChar '/' relPath.data).length,
    (jsSplitChar '/' relPath.data).get ⟨i, hi⟩ = "node_modules" →
    PackageRecordedUnscoped (sourceFileToModuleSymbolId emptyStore relPath fileScope).2
      (((jsSplitChar '/' relPath.data).drop i).take 2)
      (sourceFileToModuleSymbolId emptyStore relPath fileScope).1) ∧
  (sourceFileToModuleSymbolId emptyStore relPath fileScope).2.refs.length =
    (jsSplitChar '/' relPath.data).countP (fun p => p == "node_modules")

-- ## Generic list facts used by several proofs

theorem list_find?_none_mem {α : Type} (p : α → Bool) (l : List α)
    (h : l.find? p = none) : ∀ a ∈ l, p a = false := by
  induction l with
  | nil => intro a ha; cases ha
  | cons b l ih =>
    intro a ha
    cases hpb : p b with
    | true => simp [List.find?, hpb] at h
    | false =>
      simp only [List.find?, hpb] at h
      cases ha with
      | head => exact hpb
      | tail _ ht => exact ih h a ht

theorem list_find?_append_none {α : Type} (p : α → Bool) (l1 l2 : List α)
    (h : l1.find? p = none) : (l1 ++ l2).find? p = l2.find? p := by
  induction l1 with
  | nil => simp
  | cons a l ih =>
    cases hpa : p a with
    | true => simp [List.find?, hpa] at h
    | false =>
      simp only [List.find?, hpa] at h
      simp only [List.cons_append, List.find?, hpa]
      exact ih h

theorem list_find?_append_some {α : Type} (p : α → Bool) (l1 l2 : List α)
    (a : α) (h : l1.find? p = some a) : (l1 ++ l2).find? p = some a := by
  induction l1 with
  | nil => simp [List.find?] at h
  | cons b l ih =>
    cases hpb : p b with
    | true =>
      simp only [List.find?, hpb] at h
      simp only [List.cons_append, List.find?, hpb]
      exact h
    | false =>
      simp only [List.find?, hpb] at h
      simp only [List.cons_append, List.find?, hpb]
      exact ih h

theorem list_filter_nil_of_false {α : Type} (p : α → Bool) (l : List α)
    (h : ∀ a ∈ l, p a = false) : l.filter p = [] := by
  induction l with
  | nil => rfl
  | cons a l ih =>
    have ha := h a (List.mem_cons_self a l)
    simp only [List.filter, ha]
    exact ih (fun b hb => h b (List.mem_cons_of_mem a hb))

-- ## Claim C2

/-- Claim C2: the claim states that every conversion of zero-based front-end
positions into a store range uses the single convention start.col + 1 and
end.col + 1.  The code diverges: Indexing.toSourceRange of
src/src/indexing_logic.ts (and the writer draft) passes the start column
through zero-based, the builder-draft toSourceRange passes the end column
through, while only the addDiagnostics conversion follows the mandated
convention — at start (0,0) end (0,4) the three conversions disagree. -/
theorem c2_range_conversion_divergence :
    toSourceRangeLogic 1 { line := 0, character := 0 } { line := 0, character := 4 } ≠
      toRangeSpec 1 { line := 0, character := 0 } { line := 0, character := 4 } ∧
    (toSourceRangeLogic 1 { line := 0, character := 0 } { line := 0, character := 4 }).startCol = 0 ∧
    (toRangeSpec 1 { line := 0, character := 0 } { line := 0, character := 4 }).startCol = 1 ∧
    toSourceRangeBuilder 1 { line := 0, character := 0 } { line := 0, character := 4 } ≠
      toRangeSpec 1 { line := 0, character := 0 } { line := 0, character := 4 } ∧
    (toSourceRangeBuilder 1 { line := 0, character := 0 } { line := 0, character := 4 }).endCol = 4 ∧
    (toRangeSpec 1 { line := 0, character := 0 } { line := 0, character := 4 }).endCol = 5 ∧
    toSourceRangeDiagnostics 1 { line := 0, character := 0 } { line := 0, character := 4 } =
      toRangeSpec 1 { line := 0, character := 0 } { line := 0, character := 4 } := by
  decide

-- ## Claim C3

/-- Claim C3: the claim states that a failing store record call aborts the
session.  The code instead evaluates new Error(...) without throw: with a
store whose recordFile fails (returns 0) and whose recordFileLanguage fails
(returns false), getFileId returns normally with the sentinel id 0,
memoises it, and keeps returning the memoised 0 on later calls — indexing
continues past the failure. -/
theorem c3_record_failure_not_fatal :
    getFileId (fun _ => 0) (fun _ _ => false) { fileIds := [] } "a.ts" =
      (0, { fileIds := [("a.ts", 0)] }) ∧
    getFileId (fun _ => 0) (fun _ _ => false) { fileIds := [("a.ts", 0)] } "a.ts" =
      (0, { fileIds := [("a.ts", 0)] }) := by
  decide

-- ## Claim C1

/-- Claim C1: recording a symbol twice with the same hierarchy, kind and
definition kind — as happens when the same module symbol is derived both
from the library-reference pass and from the per-file traversal — returns
the same symbol id both times and leaves exactly one symbol row for the
hierarchy and exactly one kind and one definition-kind row for the id,
provided the store is well-formed (ids bounded by the fresh counter) and
the hierarchy is being recorded for the first time. -/
theorem c1_record_symbol_upsert (s : Store) (h : NameHierarchy) (k : SymbolKind)
    (d : DefinitionKind) (hb : StoreBounded s)
    (hnew : s.lookupSymbol h = none) : C1Spec s h k d := by
  obtain ⟨hbs, hbk, hbd⟩ := hb
  have hfind : s.symbols.find? (fun p => p.1 == h) = none := by
    unfold Store.lookupSymbol at hnew
    cases hf : s.symbols.find? (fun p => p.1 == h) with
    | none => rfl
    | some a => rw [hf] at hnew; simp at hnew
  have hdnotin : (s.nextSymbolId, d) ∉ s.defKinds := by
    intro hmem
    exact Nat.lt_irrefl s.nextSymbolId (hbd _ hmem)
  have hknotin : (s.nextSymbolId, k) ∉ s.kinds := by
    intro hmem
    exact Nat.lt_irrefl s.nextSymbolId (hbk _ hmem)
  have hstep1 : recordSymbolFull s h k d = (s.nextSymbolId, afterFirstRecord s h k d) := by
    simp only [recordSymbolFull, Store.recordSymbol, hnew,
      Store.recordSymbolDefinitionKind, Store.recordSymbolKind]
    rw [if_neg hdnotin, if_neg hknotin]
    rfl
  have hlookupC : (afterFirstRecord s h k d).lookupSymbol h = some s.nextSymbolId := by
    unfold Store.lookupSymbol afterFirstRecord
    simp only
    rw [list_find?_append_none _ _ _ hfind]
    simp [List.find?]
  have hstep2 : recordSymbolFull (afterFirstRecord s h k d) h k d =
      (s.nextSymbolId, afterFirstRecord s h k d) := by
    simp only [recordSymbolFull, Store.recordSymbol, hlookupC,
      Store.recordSymbolDefinitionKind, Store.recordSymbolKind]
    rw [if_pos (by simp [afterFirstRecord]), if_pos (by simp [afterFirstRecord])]
  have hsymfalse : ∀ a ∈ s.symbols, (fun p => p.1 == h) a = false :=
    list_find?_none_mem _ _ hfind
  have hkfalse : ∀ a ∈ s.kinds, (fun p => p.1 == s.nextSymbolId) a = false := by
    intro a ha
    have hlt := hbk a ha
    simp only [beq_eq_false_iff_ne]
    exact Nat.ne_of_lt hlt
  have hdfalse : ∀ a ∈ s.defKinds, (fun p => p.1 == s.nextSymbolId) a = false := by
    intro a ha
    have hlt := hbd a ha
    simp only [beq_eq_false_iff_ne]
    exact Nat.ne_of_lt hlt
  unfold C1Spec
  rw [hstep1]
  simp only
  rw [hstep2]
  simp only
  refine ⟨trivial, ?_, ?_, ?_, trivial⟩
  · simp only [symbolRowsFor, afterFirstRecord, List.filter_append]
    rw [list_filter_nil_of_false _ _ hsymfalse]
    simp [List.filter]
  · simp only [kindRowsFor, afterFirstRecord, List.filter_append]
    rw [list_filter_nil_of_false _ _ hkfalse]
    simp [List.filter]
  · simp only [defKindRowsFor, afterFirstRecord, List.filter_append]
    rw [list_filter_nil_of_false _ _ hdfalse]
    simp [List.filter]

/-- Witness for claim C1: the empty store is bounded, the example hierarchy
is new there, and the idempotency conclusion holds for it. -/
theorem c1_record_symbol_upsert_witness :
    StoreBounded emptyStore ∧
    emptyStore.lookupSymbol { sep := "/", elems := ["lib.d.ts"] } = none ∧
    C1Spec emptyStore { sep := "/", elems := ["lib.d.ts"] }
      SymbolKind.MODULE DefinitionKind.EXPLICIT :=
  ⟨by decide, by decide,
    c1_record_symbol_upsert emptyStore { sep := "/", elems := ["lib.d.ts"] }
      SymbolKind.MODULE DefinitionKind.EXPLICIT (by decide) (by decide)⟩

-- ## Claim C7

/-- Claim C7 counterexample: the claim states that the global-variable
classification is a structural predicate over the enclosing scope kinds
rather than a magic flag bit.  The code tests bit 23 of node.flags and
nothing else: a top-level variable declaration that is global by the
structural classification (only a source-file scope around it) but whose
flags word is zero is not recorded, refuting recorded-iff-structurally-
ambient. -/
theorem c7_flag_bit_counterexample :
    structurallyAmbient plainTopLevelVarNode = true ∧
    visitVariableDeclaration plainTopLevelVarNode = none ∧
    plainTopLevelVarNode.flags &&& (1 <<< 23) = 0 := by
  decide

/-- Claim C7 as amended: the VariableDeclaration arm records an explicit
GLOBAL_VARIABLE symbol if and only if bit 23 of the front-end flags word
(the undocumented ambient flag) is set — not a structural predicate; when it
does, the hierarchy is the single declared name, the declaration location is
the name node range and the signature is the parent node span.  A file with
one flagged declaration X and one unflagged local of the same name yields
exactly the one symbol for the flagged X. -/
theorem c7_global_variable_by_flag_bit (node : VarDeclNode) :
    ((visitVariableDeclaration node).isSome ↔ node.flags &&& (1 <<< 23) ≠ 0) ∧
    (∀ r, visitVariableDeclaration node = some r →
      r = { sep := "."
            hierarchy := [node.name]
            kind := SymbolKind.GLOBAL_VARIABLE
            defKind := DefinitionKind.EXPLICIT
            location := node.nameRange
            signature := node.parentRange }) ∧
    fileGlobalVariableSymbols [ambientVarNode, localVarNode] =
      [{ sep := "."
         hierarchy := ["X"]
         kind := SymbolKind.GLOBAL_VARIABLE
         defKind := DefinitionKind.EXPLICIT
         location := ambientVarNode.nameRange
         signature := ambientVarNode.parentRange }] := by
  refine ⟨?_, ?_, by decide⟩
  · by_cases hc : node.flags &&& (1 <<< 23) ≠ 0
    · simp [visitVariableDeclaration, hc]
    · simp only [ne_eq, not_not] at hc
      simp [visitVariableDeclaration, hc]
  · intro r hr
    unfold visitVariableDeclaration at hr
    by_cases hc : node.flags &&& (1 <<< 23) ≠ 0
    · rw [if_pos hc] at hr
      exact (Option.some.inj hr).symm
    · rw [if_neg hc] at hr
      cases hr

/-- Witness for claim C7 as amended: the per-node equivalence applied at the
concrete ambient node, with the recorded symbol extracted through the
second conjunct at a concrete record. -/
theorem c7_global_variable_by_flag_bit_witness :
    ((visitVariableDeclaration ambientVarNode).isSome ↔
      ambientVarNode.flags &&& (1 <<< 23) ≠ 0) ∧
    ({ sep := "."
       hierarchy := ["X"]
       kind := SymbolKind.GLOBAL_VARIABLE
       defKind := DefinitionKind.EXPLICIT
       location := ambientVarNode.nameRange
       signature := ambientVarNode.parentRange } : SymbolRecord) =
      { sep := "."
        hierarchy := [ambientVarNode.name]
        kind := SymbolKind.GLOBAL_VARIABLE
        defKind := DefinitionKind.EXPLICIT
        location := ambientVarNode.nameRange
        signature := ambientVarNode.parentRange } :=
  ⟨(c7_global_variable_by_flag_bit ambientVarNode).1,
    (c7_global_variable_by_flag_bit ambientVarNode).2.1
      { sep := "."
        hierarchy := ["X"]
        kind := SymbolKind.GLOBAL_VARIABLE
        defKind := DefinitionKind.EXPLICIT
        location := ambientVarNode.nameRange
        signature := ambientVarNode.parentRange }
      (by decide)⟩

-- ## Claim C8

/-- Claim C8 counterexample: the claim states that getOrCreateFile
normalises its argument before lookup, so that the raw and the normalised
path yield the same file id.  getFileId keys its memo map on the raw file
name and never calls normalizePath: in a fresh session the path ./a.ts and
its normalisation a.ts are recorded as two distinct files with two distinct
ids, and two store record calls are made for what normalises to one path. -/
theorem c8_no_normalization_counterexample :
    normalizePath "./a.ts" = "a.ts" ∧
    ("./a.ts" : String) ≠ "a.ts" ∧
    (getFileIdStore { fileIds := [] } emptyStore "./a.ts").1 = 1 ∧
    (getFileIdStore
      (getFileIdStore { fileIds := [] } emptyStore "./a.ts").2.1
      (getFileIdStore { fileIds := [] } emptyStore "./a.ts").2.2
      (normalizePath "./a.ts")).1 = 2 ∧
    (1 : Nat) ≠ 2 := by
  decide

/-- Claim C8 as amended: getFileId memoises on the exact file name string
(no normalisation): a repeated call with the same file name returns the
identical id and leaves the memo map and the store unchanged, so the store
record call happens at most once per distinct file name; calls with a path
and its normalisation may yield different ids (see the counterexample). -/
theorem c8_memoised_by_exact_name (st : IndexingFileIds) (s : Store)
    (fileName : String) :
    getFileIdStore (getFileIdStore st s fileName).2.1
      (getFileIdStore st s fileName).2.2 fileName =
      getFileIdStore st s fileName := by
  cases hf : st.fileIds.find? (fun p => p.1 == fileName) with
  | some p =>
    simp only [getFileIdStore, hf]
  | none =>
    simp only [getFileIdStore, hf]
    simp only [Store.recordFile, Store.recordFileLanguage]
    rw [list_find?_append_none _ _ _ hf]
    simp [List.find?]

/-- Witness for claim C8 as amended: the repeated call at a concrete state,
file and name. -/
theorem c8_memoised_by_exact_name_witness :
    getFileIdStore (getFileIdStore { fileIds := [] } emptyStore "a.ts").2.1
      (getFileIdStore { fileIds := [] } emptyStore "a.ts").2.2 "a.ts" =
      getFileIdStore { fileIds := [] } emptyStore "a.ts" :=
  c8_memoised_by_exact_name { fileIds := [] } emptyStore "a.ts"

-- ## Transactional store lemmas (claims C9 and C10)

theorem txstore_run_append (s : TxStore) (a b : List StoreEvent) :
    TxStore.run s (a ++ b) = TxStore.run (TxStore.run s a) b := by
  induction a generalizing s with
  | nil => rfl
  | cons e es ih =>
    simp only [List.cons_append, TxStore.run]
    exact ih (s.applyEvent e)

theorem txstore_run_writes (ws : List Nat) (c : List Nat) (wipe : Bool)
    (buf : List Nat) :
    TxStore.run { committed := c, pending := some (wipe, buf) }
      (ws.map StoreEvent.writeEv) =
      { committed := c, pending := some (wipe, buf ++ ws) } := by
  induction ws generalizing buf with
  | nil => simp [TxStore.run]
  | cons w ws ih =>
    simp only [List.map_cons, TxStore.run, TxStore.applyEvent]
    rw [ih (buf ++ [w])]
    simp [List.append_assoc]

-- ## Claim C9

/-- Claim C9 counterexample: the claim states that the clear executes inside
its own committed transaction preceding the main indexing transaction, so a
failed main pass never commits a partial graph.  The PerformIndexing draft
of src/unnamed/part_001 issues no transaction calls at all: with the clear
flag set and two pending record calls, its trace is just the clear and the
writes; stopping after the first write (a failure mid-pass) leaves the
committed store partially populated — neither empty nor in its pre-existing
state. -/
theorem c9_draft_no_transactions_counterexample :
    performIndexingTraceDraft true [7, 8] =
      [StoreEvent.clearEv, StoreEvent.writeEv 7, StoreEvent.writeEv 8] ∧
    StoreEvent.beginTx ∉ performIndexingTraceDraft true [7, 8] ∧
    StoreEvent.commitTx ∉ performIndexingTraceDraft true [7, 8] ∧
    (performIndexingTraceDraft true [7, 8]).take 2 =
      [StoreEvent.clearEv, StoreEvent.writeEv 7] ∧
    (TxStore.run { committed := [1], pending := none }
      [StoreEvent.clearEv, StoreEvent.writeEv 7]).committed = [7] ∧
    ([7] : List Nat) ≠ [] ∧
    ([7] : List Nat) ≠ [1] := by
  decide

/-- Claim C9 as amended: in the transactional PerformIndexing draft
(src/unnamed/part_000 writer class) the clear executes inside the first
transaction, committed before the main indexing transaction begins; at that
boundary the committed store is empty when the flag is set and untouched
otherwise; an interruption of the main pass leaves the committed store in
exactly that state (never partially populated); and a completed run commits
that state plus all indexing writes.  The earlier draft in
src/unnamed/part_001 has no transactions and no such guarantee (see the
counterexample). -/
theorem c9_clear_own_committed_transaction (init : TxStore)
    (hpend : init.pending = none) (clear : Bool) (ws1 ws2 : List Nat) :
    C9Spec init clear ws1 ws2 := by
  obtain ⟨c0, p0⟩ := init
  simp only at hpend
  subst hpend
  unfold C9Spec
  cases clear <;>
    refine ⟨?_, ?_, ?_, ?_⟩ <;>
      simp [performIndexingTrace, TxStore.run, TxStore.applyEvent,
        txstore_run_append, txstore_run_writes, List.map_append,
        List.append_assoc]

/-- Witness for claim C9 as amended: a concrete pre-populated store outside
any transaction, with the clear flag set and a split write list. -/
theorem c9_clear_own_committed_transaction_witness :
    C9Spec { committed := [1], pending := none } true [7] [8] :=
  c9_clear_own_committed_transaction { committed := [1], pending := none }
    rfl true [7] [8]

-- ## Claim C10

/-- Claim C10: in the transactional PerformIndexing draft the first
transaction (begin, optional clear, commit) and the first
optimizeDatabaseMemory request execute unconditionally — the trace contains
them for either flag value — and with the clear flag false the first
transaction writes nothing, so the store is unchanged at the first commit
boundary. -/
theorem c10_first_transaction_unconditional (init : TxStore)
    (hpend : init.pending = none) (writes : List Nat) :
    C10Spec init writes := by
  obtain ⟨c0, p0⟩ := init
  simp only at hpend
  subst hpend
  unfold C10Spec
  refine ⟨?_, ?_, ?_, ?_⟩
  · intro clear
    cases clear with
    | true => simp [performIndexingTrace]
    | false => simp [performIndexingTrace]
  · simp [performIndexingTrace]
  · simp [TxStore.run, TxStore.applyEvent]
  · simp [TxStore.run, TxStore.applyEvent]

/-- Witness for claim C10: a concrete pre-populated store outside any
transaction with one indexing write. -/
theorem c10_first_transaction_unconditional_witness :
    C10Spec { committed := [4], pending := none } [9] :=
  c10_first_transaction_unconditional { committed := [4], pending := none }
    rfl [9]

-- ## Comment folder lemmas (claims C4 and C5)

theorem combineAndAdd_first (fileId : Nat) (lcOf : Nat → LineAndCharacter)
    (st : CommentFoldState) :
    (combineAndAdd fileId lcOf st).firstSingleLineCommentStart =
      st.firstSingleLineCommentStart := by
  unfold combineAndAdd
  split <;> rfl

theorem combineAndAdd_last (fileId : Nat) (lcOf : Nat → LineAndCharacter)
    (st : CommentFoldState) :
    (combineAndAdd fileId lcOf st).lastSingleLineCommentEnd =
      st.lastSingleLineCommentEnd := by
  unfold combineAndAdd
  split <;> rfl

theorem combineAndAdd_count (fileId : Nat) (lcOf : Nat → LineAndCharacter)
    (st : CommentFoldState) :
    (combineAndAdd fileId lcOf st).singleLineCommentCount =
      st.singleLineCommentCount := by
  unfold combineAndAdd
  split <;> rfl

theorem commentFoldStep_single_plain (fileId : Nat) (lcOf : Nat → LineAndCharacter)
    (text : String) (st : CommentFoldState) (c : CommentRange)
    (hk : c.kind = CommentKind.singleLine)
    (hnd : isRegionDelimiter (jsSlice text c.pos c.endPos) = false) :
    commentFoldStep fileId lcOf text st c =
      { firstSingleLineCommentStart :=
          if st.singleLineCommentCount = 0 then c.pos
          else st.firstSingleLineCommentStart
        lastSingleLineCommentEnd := c.endPos
        singleLineCommentCount := st.singleLineCommentCount + 1
        recorded := st.recorded } := by
  unfold commentFoldStep
  rw [hk]
  simp only [hnd, Bool.false_eq_true, if_false]
  by_cases h0 : st.singleLineCommentCount = 0
  · simp [h0]
  · simp [h0]

theorem commentFoldStep_delimiter (fileId : Nat) (lcOf : Nat → LineAndCharacter)
    (text : String) (st : CommentFoldState) (c : CommentRange)
    (hk : c.kind = CommentKind.singleLine)
    (hd : isRegionDelimiter (jsSlice text c.pos c.endPos) = true) :
    commentFoldStep fileId lcOf text st c =
      { combineAndAdd fileId lcOf st with singleLineCommentCount := 0 } := by
  unfold commentFoldStep
  rw [hk]
  simp only [hd, if_true]

theorem commentFoldStep_multi (fileId : Nat) (lcOf : Nat → LineAndCharacter)
    (text : String) (st : CommentFoldState) (c : CommentRange)
    (hk : c.kind = CommentKind.multiLine) :
    commentFoldStep fileId lcOf text st c =
      { combineAndAdd fileId lcOf st with
        recorded := (combineAndAdd fileId lcOf st).recorded ++
          [toSourceRangeBuilder fileId (lcOf c.pos) (lcOf c.endPos)]
        singleLineCommentCount := 0 } := by
  unfold commentFoldStep
  rw [hk]

theorem foldl_plain_run (fileId : Nat) (lcOf : Nat → LineAndCharacter)
    (text : String) (run : List CommentRange) :
    ∀ st : CommentFoldState, isPlainSingleLineRun text run = true → run ≠ [] →
    run.foldl (commentFoldStep fileId lcOf text) st =
      { firstSingleLineCommentStart :=
          if st.singleLineCommentCount = 0 then runHeadPos run
          else st.firstSingleLineCommentStart
        lastSingleLineCommentEnd := runLastEnd run
        singleLineCommentCount := st.singleLineCommentCount + run.length
        recorded := st.recorded } := by
  induction run with
  | nil => intro st _ hne; exact absurd rfl hne
  | cons c run1 ih =>
    intro st hall _
    simp only [isPlainSingleLineRun, List.all_cons, Bool.and_eq_true,
      beq_iff_eq, Bool.not_eq_true'] at hall
    obtain ⟨⟨hk, hnd⟩, hall1⟩ := hall
    have hstep := commentFoldStep_single_plain fileId lcOf text st c hk hnd
    simp only [List.foldl_cons, hstep]
    cases run1 with
    | nil =>
      simp [runHeadPos, runLastEnd]
    | cons c2 run2 =>
      rw [ih _ hall1 (by simp)]
      simp only [CommentFoldState.mk.injEq]
      refine ⟨?_, ?_, ?_, trivial⟩
      · simp [runHeadPos]
      · simp [runLastEnd]
      · simp [List.length_cons]
        omega

theorem combineAndAdd_recorded_front (fileId : Nat)
    (lcOf : Nat → LineAndCharacter) (a : List SourceRange)
    (st : CommentFoldState) :
    combineAndAdd fileId lcOf { st with recorded := a ++ st.recorded } =
      { combineAndAdd fileId lcOf st with
        recorded := a ++ (combineAndAdd fileId lcOf st).recorded } := by
  unfold combineAndAdd
  by_cases h1 : st.singleLineCommentCount > 1
  · simp [h1, List.append_assoc]
  · simp [h1]

theorem commentFoldStep_recorded_front (fileId : Nat)
    (lcOf : Nat → LineAndCharacter) (text : String) (c : CommentRange)
    (a : List SourceRange) (st : CommentFoldState) :
    commentFoldStep fileId lcOf text { st with recorded := a ++ st.recorded } c =
      { commentFoldStep fileId lcOf text st c with
        recorded := a ++ (commentFoldStep fileId lcOf text st c).recorded } := by
  cases hk : c.kind with
  | singleLine =>
    by_cases hd : isRegionDelimiter (jsSlice text c.pos c.endPos) = true
    · rw [commentFoldStep_delimiter fileId lcOf text _ c hk hd,
        commentFoldStep_delimiter fileId lcOf text st c hk hd,
        combineAndAdd_recorded_front]
    · rw [commentFoldStep_single_plain fileId lcOf text _ c hk
        (Bool.not_eq_true _ ▸ hd),
        commentFoldStep_single_plain fileId lcOf text st c hk
        (Bool.not_eq_true _ ▸ hd)]
  | multiLine =>
    rw [commentFoldStep_multi fileId lcOf text _ c hk,
      commentFoldStep_multi fileId lcOf text st c hk,
      combineAndAdd_recorded_front]
    simp [List.append_assoc]

theorem foldl_recorded_front (fileId : Nat) (lcOf : Nat → LineAndCharacter)
    (text : String) (l : List CommentRange) :
    ∀ (st : CommentFoldState) (a : List SourceRange),
    l.foldl (commentFoldStep fileId lcOf text) { st with recorded := a ++ st.recorded } =
      { l.foldl (commentFoldStep fileId lcOf text) st with
        recorded := a ++ (l.foldl (commentFoldStep fileId lcOf text) st).recorded } := by
  induction l with
  | nil => intro st a; rfl
  | cons c l ih =>
    intro st a
    simp only [List.foldl_cons]
    rw [commentFoldStep_recorded_front]
    exact ih (commentFoldStep fileId lcOf text st c) a

theorem combineAndAdd_recorded_equiv (fileId : Nat)
    (lcOf : Nat → LineAndCharacter) (st st2 : CommentFoldState)
    (he : FoldStateEquiv st st2) :
    (combineAndAdd fileId lcOf st).recorded =
      (combineAndAdd fileId lcOf st2).recorded := by
  obtain ⟨hc, hr, hfl⟩ := he
  unfold combineAndAdd
  by_cases h1 : st.singleLineCommentCount > 1
  · obtain ⟨hf, hl⟩ := hfl (by omega)
    rw [if_pos h1, if_pos (hc ▸ h1)]
    simp [hr, hf, hl]
  · rw [if_neg h1, if_neg (hc ▸ h1)]
    exact hr

theorem commentFoldStep_equiv (fileId : Nat) (lcOf : Nat → LineAndCharacter)
    (text : String) (c : CommentRange) (st st2 : CommentFoldState)
    (he : FoldStateEquiv st st2) :
    FoldStateEquiv (commentFoldStep fileId lcOf text st c)
      (commentFoldStep fileId lcOf text st2 c) := by
  have hca := combineAndAdd_recorded_equiv fileId lcOf st st2 he
  obtain ⟨hc, hr, hfl⟩ := he
  cases hk : c.kind with
  | singleLine =>
    by_cases hd : isRegionDelimiter (jsSlice text c.pos c.endPos) = true
    · rw [commentFoldStep_delimiter fileId lcOf text st c hk hd,
        commentFoldStep_delimiter fileId lcOf text st2 c hk hd]
      exact ⟨rfl, hca, fun hne => absurd rfl hne⟩
    · rw [commentFoldStep_single_plain fileId lcOf text st c hk
        (Bool.not_eq_true _ ▸ hd),
        commentFoldStep_single_plain fileId lcOf text st2 c hk
        (Bool.not_eq_true _ ▸ hd)]
      refine ⟨by simp [hc], hr, fun _ => ⟨?_, rfl⟩⟩
      by_cases h0 : st.singleLineCommentCount = 0
      · simp [h0, hc ▸ h0]
      · obtain ⟨hf, _⟩ := hfl h0
        simp [h0, hc ▸ h0, hf]
  | multiLine =>
    rw [commentFoldStep_multi fileId lcOf text st c hk,
      commentFoldStep_multi fileId lcOf text st2 c hk]
    exact ⟨rfl, by simp [hca], fun hne => absurd rfl hne⟩

theorem foldl_equiv (fileId : Nat) (lcOf : Nat → LineAndCharacter)
    (text : String) (l : List CommentRange) :
    ∀ st st2 : CommentFoldState, FoldStateEquiv st st2 →
    FoldStateEquiv (l.foldl (commentFoldStep fileId lcOf text) st)
      (l.foldl (commentFoldStep fileId lcOf text) st2) := by
  induction l with
  | nil => intro st st2 he; exact he
  | cons c l ih =>
    intro st st2 he
    exact ih _ _ (commentFoldStep_equiv fileId lcOf text c st st2 he)

/-- Output of the fold after a run-stopping head comment: processing a
stopping comment (multi-line, or single-line region delimiter) from any
state st and then the remainder yields exactly the flush of st followed by
the output of processing the stopping comment and the remainder from the
initial state. -/
theorem output_after_stop (fileId : Nat) (lcOf : Nat → LineAndCharacter)
    (text : String) (r : CommentRange) (rest1 : List CommentRange)
    (st : CommentFoldState)
    (hstop : r.kind = CommentKind.multiLine ∨
      (r.kind = CommentKind.singleLine ∧
        isRegionDelimiter (jsSlice text r.pos r.endPos) = true)) :
    (combineAndAdd fileId lcOf
      (rest1.foldl (commentFoldStep fileId lcOf text)
        (commentFoldStep fileId lcOf text st r))).recorded =
    (combineAndAdd fileId lcOf st).recorded ++
    (combineAndAdd fileId lcOf
      (rest1.foldl (commentFoldStep fileId lcOf text)
        (commentFoldStep fileId lcOf text initialCommentFoldState r))).recorded := by
  cases hstop with
  | inl hk =>
    rw [commentFoldStep_multi fileId lcOf text st r hk,
      commentFoldStep_multi fileId lcOf text initialCommentFoldState r hk]
    have hinit : combineAndAdd fileId lcOf initialCommentFoldState =
        initialCommentFoldState := rfl
    rw [hinit]
    have hx :
        ({ combineAndAdd fileId lcOf st with
           recorded := (combineAndAdd fileId lcOf st).recorded ++
             [toSourceRangeBuilder fileId (lcOf r.pos) (lcOf r.endPos)]
           singleLineCommentCount := 0 } : CommentFoldState) =
        { firstSingleLineCommentStart := st.firstSingleLineCommentStart
          lastSingleLineCommentEnd := st.lastSingleLineCommentEnd
          singleLineCommentCount := 0
          recorded := (combineAndAdd fileId lcOf st).recorded ++
            ([] ++ [toSourceRangeBuilder fileId (lcOf r.pos) (lcOf r.endPos)]) } := by
      simp [combineAndAdd_first, combineAndAdd_last]
    rw [hx]
    have hpre := foldl_recorded_front fileId lcOf text rest1
      { firstSingleLineCommentStart := st.firstSingleLineCommentStart
        lastSingleLineCommentEnd := st.lastSingleLineCommentEnd
        singleLineCommentCount := 0
        recorded := [] ++ [toSourceRangeBuilder fileId (lcOf r.pos) (lcOf r.endPos)] }
      (combineAndAdd fileId lcOf st).recorded
    simp only at hpre
    rw [hpre, combineAndAdd_recorded_front]
    simp only
    congr 1
    apply combineAndAdd_recorded_equiv
    apply foldl_equiv
    exact ⟨rfl, rfl, fun hne => absurd rfl hne⟩
  | inr hkd =>
    obtain ⟨hk, hd⟩ := hkd
    rw [commentFoldStep_delimiter fileId lcOf text st r hk hd,
      commentFoldStep_delimiter fileId lcOf text initialCommentFoldState r hk hd]
    have hinit :
        ({ combineAndAdd fileId lcOf initialCommentFoldState with
           singleLineCommentCount := 0 } : CommentFoldState) =
        initialCommentFoldState := rfl
    rw [hinit]
    have hx :
        ({ combineAndAdd fileId lcOf st with singleLineCommentCount := 0 } :
          CommentFoldState) =
        { firstSingleLineCommentStart := st.firstSingleLineCommentStart
          lastSingleLineCommentEnd := st.lastSingleLineCommentEnd
          singleLineCommentCount := 0
          recorded := (combineAndAdd fileId lcOf st).recorded ++ [] } := by
      simp [combineAndAdd_first, combineAndAdd_last]
    rw [hx]
    have hpre := foldl_recorded_front fileId lcOf text rest1
      { firstSingleLineCommentStart := st.firstSingleLineCommentStart
        lastSingleLineCommentEnd := st.lastSingleLineCommentEnd
        singleLineCommentCount := 0
        recorded := [] }
      (combineAndAdd fileId lcOf st).recorded
    simp only [List.append_nil] at hpre ⊢
    rw [hpre, combineAndAdd_recorded_front]
    simp only
    congr 1
    apply combineAndAdd_recorded_equiv
    apply foldl_equiv
    exact ⟨rfl, rfl, fun hne => absurd rfl hne⟩

-- ## Claim C4

/-- Claim C4: a maximal run of consecutive non-delimiter single-line
comments (maximal because the trivia list ends or continues with a
multi-line comment or a region delimiter) produces exactly one atomic
source range, spanning the start of the first comment of the run to the end
of the last, and only when the run has two or more comments; in particular
the trivia list of two line comments followed by a block comment yields
exactly two atomic ranges, and a lone line comment yields none. -/
theorem c4_single_line_comment_runs (fileId : Nat)
    (lcOf : Nat → LineAndCharacter) (text : String)
    (run rest : List CommentRange)
    (hrun : isPlainSingleLineRun text run = true)
    (hrest : endsRun text rest = true) :
    C4RunSpec fileId lcOf text run rest ∧
    recordAtomicSourceRangesForMultilineComments 1
      (fun p => { line := 0, character := p }) "// a\n// b\n/* c */"
      [{ kind := CommentKind.singleLine, pos := 0, endPos := 4 },
       { kind := CommentKind.singleLine, pos := 5, endPos := 9 },
       { kind := CommentKind.multiLine, pos := 10, endPos := 17 }] =
      [toSourceRangeBuilder 1 { line := 0, character := 0 } { line := 0, character := 9 },
       toSourceRangeBuilder 1 { line := 0, character := 10 } { line := 0, character := 17 }] ∧
    recordAtomicSourceRangesForMultilineComments 1
      (fun p => { line := 0, character := p }) "// a"
      [{ kind := CommentKind.singleLine, pos := 0, endPos := 4 }] = [] := by
  refine ⟨?_, by decide, by decide⟩
  unfold C4RunSpec recordAtomicSourceRangesForMultilineComments
  rw [List.foldl_append]
  by_cases hre : run = []
  · subst hre
    simp
  · have hst : run.foldl (commentFoldStep fileId lcOf text) initialCommentFoldState =
        { firstSingleLineCommentStart := runHeadPos run
          lastSingleLineCommentEnd := runLastEnd run
          singleLineCommentCount := run.length
          recorded := [] } := by
      rw [foldl_plain_run fileId lcOf text run initialCommentFoldState hrun hre]
      simp [initialCommentFoldState]
    rw [hst]
    have hflush :
        (combineAndAdd fileId lcOf
          { firstSingleLineCommentStart := runHeadPos run
            lastSingleLineCommentEnd := runLastEnd run
            singleLineCommentCount := run.length
            recorded := [] }).recorded =
        (if 2 ≤ run.length then
          [toSourceRangeBuilder fileId (lcOf (runHeadPos run))
            (lcOf (runLastEnd run))]
        else []) := by
      unfold combineAndAdd
      by_cases h2 : 2 ≤ run.length
      · have h1 : (1 : Nat) < run.length := h2
        simp [h1, h2]
      · have h1 : ¬ (1 : Nat) < run.length := h2
        simp [h1, h2]
    cases rest with
    | nil =>
      simp only [List.foldl_nil]
      rw [hflush]
      simp [combineAndAdd, initialCommentFoldState]
    | cons r rest1 =>
      have hstop : r.kind = CommentKind.multiLine ∨
          (r.kind = CommentKind.singleLine ∧
            isRegionDelimiter (jsSlice text r.pos r.endPos) = true) := by
        cases hk : r.kind with
        | multiLine => exact Or.inl rfl
        | singleLine =>
          refine Or.inr ⟨rfl, ?_⟩
          simp only [endsRun] at hrest
          rw [hk] at hrest
          exact hrest
      simp only [List.foldl_cons]
      rw [output_after_stop fileId lcOf text r rest1 _ hstop, hflush]

/-- Witness for claim C4: the run of the two line comments of the example,
stopped by the block comment. -/
theorem c4_single_line_comment_runs_witness :
    C4RunSpec 1 (fun p => { line := 0, character := p }) "// a\n// b\n/* c */"
      [{ kind := CommentKind.singleLine, pos := 0, endPos := 4 },
       { kind := CommentKind.singleLine, pos := 5, endPos := 9 }]
      [{ kind := CommentKind.multiLine, pos := 10, endPos := 17 }] :=
  (c4_single_line_comment_runs 1 (fun p => { line := 0, character := p })
    "// a\n// b\n/* c */"
    [{ kind := CommentKind.singleLine, pos := 0, endPos := 4 },
     { kind := CommentKind.singleLine, pos := 5, endPos := 9 }]
    [{ kind := CommentKind.multiLine, pos := 10, endPos := 17 }]
    (by decide) (by decide)).1

-- ## Claim C5

/-- Claim C5: a single-line comment matching the region-delimiter pattern
flushes the pending run (emitting a range only when the run had two or more
comments), resets the run state, and itself appears in no emitted atomic
range — processing it at the head of the trivia list is the same as
processing the remainder from a fresh state; the four-comment region
example yields exactly one atomic range spanning the two inner comments. -/
theorem c5_region_delimiter_resets (fileId : Nat)
    (lcOf : Nat → LineAndCharacter) (text : String) (d : CommentRange)
    (rest : List CommentRange) (st : CommentFoldState)
    (hd : d.kind = CommentKind.singleLine)
    (hregion : isRegionDelimiter (jsSlice text d.pos d.endPos) = true) :
    recordAtomicSourceRangesForMultilineComments fileId lcOf text (d :: rest) =
      recordAtomicSourceRangesForMultilineComments fileId lcOf text rest ∧
    commentFoldStep fileId lcOf text st d =
      { combineAndAdd fileId lcOf st with singleLineCommentCount := 0 } ∧
    recordAtomicSourceRangesForMultilineComments 1
      (fun p => { line := 0, character := p })
      "// #region\n// a\n// b\n// #endregion"
      [{ kind := CommentKind.singleLine, pos := 0, endPos := 10 },
       { kind := CommentKind.singleLine, pos := 11, endPos := 15 },
       { kind := CommentKind.singleLine, pos := 16, endPos := 20 },
       { kind := CommentKind.singleLine, pos := 21, endPos := 34 }] =
      [toSourceRangeBuilder 1 { line := 0, character := 11 }
        { line := 0, character := 20 }] := by
  refine ⟨?_, commentFoldStep_delimiter fileId lcOf text st d hd hregion, by decide⟩
  unfold recordAtomicSourceRangesForMultilineComments
  simp only [List.foldl_cons]
  have hstep : commentFoldStep fileId lcOf text initialCommentFoldState d =
      initialCommentFoldState := by
    rw [commentFoldStep_delimiter fileId lcOf text initialCommentFoldState d hd
      hregion]
    rfl
  rw [hstep]

/-- Witness for claim C5: the leading region marker of the example list. -/
theorem c5_region_delimiter_resets_witness :
    recordAtomicSourceRangesForMultilineComments 1
      (fun p => { line := 0, character := p })
      "// #region\n// a\n// b\n// #endregion"
      ({ kind := CommentKind.singleLine, pos := 0, endPos := 10 } ::
        [{ kind := CommentKind.singleLine, pos := 11, endPos := 15 },
         { kind := CommentKind.singleLine, pos := 16, endPos := 20 },
         { kind := CommentKind.singleLine, pos := 21, endPos := 34 }]) =
      recordAtomicSourceRangesForMultilineComments 1
        (fun p => { line := 0, character := p })
        "// #region\n// a\n// b\n// #endregion"
        [{ kind := CommentKind.singleLine, pos := 11, endPos := 15 },
         { kind := CommentKind.singleLine, pos := 16, endPos := 20 },
         { kind := CommentKind.singleLine, pos := 21, endPos := 34 }] :=
  (c5_region_delimiter_resets 1 (fun p => { line := 0, character := p })
    "// #region\n// a\n// b\n// #endregion"
    { kind := CommentKind.singleLine, pos := 0, endPos := 10 }
    [{ kind := CommentKind.singleLine, pos := 11, endPos := 15 },
     { kind := CommentKind.singleLine, pos := 16, endPos := 20 },
     { kind := CommentKind.singleLine, pos := 21, endPos := 34 }]
    initialCommentFoldState (by decide) (by decide)).1

-- ## Store lemmas (claim C6)

theorem recordSymbol_kinds (s : Store) (h : NameHierarchy) :
    (s.recordSymbol h).2.kinds = s.kinds := by
  unfold Store.recordSymbol
  cases s.lookupSymbol h <;> rfl

theorem recordSymbol_defKinds (s : Store) (h : NameHierarchy) :
    (s.recordSymbol h).2.defKinds = s.defKinds := by
  unfold Store.recordSymbol
  cases s.lookupSymbol h <;> rfl

theorem recordSymbol_scopes (s : Store) (h : NameHierarchy) :
    (s.recordSymbol h).2.scopes = s.scopes := by
  unfold Store.recordSymbol
  cases s.lookupSymbol h <;> rfl

theorem recordSymbol_refs (s : Store) (h : NameHierarchy) :
    (s.recordSymbol h).2.refs = s.refs := by
  unfold Store.recordSymbol
  cases s.lookupSymbol h <;> rfl

theorem recordSymbol_symbols_lookup (s : Store) (h : NameHierarchy) :
    (s.recordSymbol h).2.lookupSymbol h = some (s.recordSymbol h).1 := by
  unfold Store.recordSymbol
  cases hl : s.lookupSymbol h with
  | some id => simpa using hl
  | none =>
    unfold Store.lookupSymbol at hl ⊢
    cases hf : s.symbols.find? (fun p => p.1 == h) with
    | some a => rw [hf] at hl; simp at hl
    | none =>
      simp only
      rw [list_find?_append_none _ _ _ hf]
      simp [List.find?]

theorem recordSymbol_lookup_mono (s : Store) (h h2 : NameHierarchy) (id : Nat)
    (hl : s.lookupSymbol h2 = some id) :
    (s.recordSymbol h).2.lookupSymbol h2 = some id := by
  unfold Store.recordSymbol
  cases hl0 : s.lookupSymbol h with
  | some i0 => simpa using hl
  | none =>
    unfold Store.lookupSymbol at hl ⊢
    cases hf : s.symbols.find? (fun p => p.1 == h2) with
    | none => rw [hf] at hl; simp at hl
    | some a =>
      rw [hf] at hl
      simp only
      rw [list_find?_append_some _ _ _ _ hf]
      exact hl

theorem lookupSymbol_kind (s : Store) (id : Nat) (k : SymbolKind)
    (h : NameHierarchy) :
    (s.recordSymbolKind id k).lookupSymbol h = s.lookupSymbol h := by
  unfold Store.recordSymbolKind
  split <;> rfl

theorem lookupSymbol_defKind (s : Store) (id : Nat) (d : DefinitionKind)
    (h : NameHierarchy) :
    (s.recordSymbolDefinitionKind id d).lookupSymbol h = s.lookupSymbol h := by
  unfold Store.recordSymbolDefinitionKind
  split <;> rfl

theorem lookupSymbol_scopeLoc (s : Store) (id : Nat) (r : SourceRange)
    (h : NameHierarchy) :
    (s.recordSymbolScopeLocation id r).lookupSymbol h = s.lookupSymbol h := rfl

theorem lookupSymbol_reference (s : Store) (a b : Nat) (k : ReferenceKind)
    (h : NameHierarchy) :
    (s.recordReference a b k).2.lookupSymbol h = s.lookupSymbol h := rfl

theorem recordSymbolKind_kinds_mem (s : Store) (id : Nat) (k : SymbolKind)
    (x : Nat × SymbolKind) (hx : x ∈ s.kinds) :
    x ∈ (s.recordSymbolKind id k).kinds := by
  unfold Store.recordSymbolKind
  split
  · exact hx
  · exact List.mem_append_left _ hx

theorem recordSymbolKind_self_mem (s : Store) (id : Nat) (k : SymbolKind) :
    (id, k) ∈ (s.recordSymbolKind id k).kinds := by
  unfold Store.recordSymbolKind
  split
  · assumption
  · simp

theorem recordSymbolKind_scopes (s : Store) (id : Nat) (k : SymbolKind) :
    (s.recordSymbolKind id k).scopes = s.scopes := by
  unfold Store.recordSymbolKind
  split <;> rfl

theorem recordSymbolKind_refs (s : Store) (id : Nat) (k : SymbolKind) :
    (s.recordSymbolKind id k).refs = s.refs := by
  unfold Store.recordSymbolKind
  split <;> rfl

theorem recordSymbolDefKind_kinds (s : Store) (id : Nat) (d : DefinitionKind) :
    (s.recordSymbolDefinitionKind id d).kinds = s.kinds := by
  unfold Store.recordSymbolDefinitionKind
  split <;> rfl

theorem recordSymbolDefKind_scopes (s : Store) (id : Nat) (d : DefinitionKind) :
    (s.recordSymbolDefinitionKind id d).scopes = s.scopes := by
  unfold Store.recordSymbolDefinitionKind
  split <;> rfl

theorem recordSymbolDefKind_refs (s : Store) (id : Nat) (d : DefinitionKind) :
    (s.recordSymbolDefinitionKind id d).refs = s.refs := by
  unfold Store.recordSymbolDefinitionKind
  split <;> rfl

theorem storeLE_refl (s : Store) : StoreLE s s :=
  ⟨fun _ _ hl => hl, fun _ hx => hx, fun _ hx => hx, fun _ hx => hx⟩

theorem storeLE_trans {a b c : Store} (h1 : StoreLE a b) (h2 : StoreLE b c) :
    StoreLE a c :=
  ⟨fun h id hl => h2.1 h id (h1.1 h id hl),
    fun x hx => h2.2.1 x (h1.2.1 x hx),
    fun x hx => h2.2.2.1 x (h1.2.2.1 x hx),
    fun x hx => h2.2.2.2 x (h1.2.2.2 x hx)⟩

theorem recordSymbol_le (s : Store) (h : NameHierarchy) :
    StoreLE s (s.recordSymbol h).2 := by
  refine ⟨fun h2 id hl => recordSymbol_lookup_mono s h h2 id hl, ?_, ?_, ?_⟩
  · rw [recordSymbol_kinds]; exact fun x hx => hx
  · rw [recordSymbol_scopes]; exact fun x hx => hx
  · rw [recordSymbol_refs]; exact fun x hx => hx

theorem recordSymbolKind_le (s : Store) (id : Nat) (k : SymbolKind) :
    StoreLE s (s.recordSymbolKind id k) := by
  refine ⟨?_, fun x hx => recordSymbolKind_kinds_mem s id k x hx, ?_, ?_⟩
  · intro h2 i hl; rw [lookupSymbol_kind]; exact hl
  · rw [recordSymbolKind_scopes]; exact fun x hx => hx
  · rw [recordSymbolKind_refs]; exact fun x hx => hx

theorem recordSymbolDefKind_le (s : Store) (id : Nat) (d : DefinitionKind) :
    StoreLE s (s.recordSymbolDefinitionKind id d) := by
  refine ⟨?_, ?_, ?_, ?_⟩
  · intro h2 i hl; rw [lookupSymbol_defKind]; exact hl
  · rw [recordSymbolDefKind_kinds]; exact fun x hx => hx
  · rw [recordSymbolDefKind_scopes]; exact fun x hx => hx
  · rw [recordSymbolDefKind_refs]; exact fun x hx => hx

theorem recordSymbolScopeLoc_le (s : Store) (id : Nat) (r : SourceRange) :
    StoreLE s (s.recordSymbolScopeLocation id r) :=
  ⟨fun _ _ hl => hl, fun _ hx => hx,
    fun x hx => List.mem_append_left _ hx, fun _ hx => hx⟩

theorem recordReference_le (s : Store) (a b : Nat) (k : ReferenceKind) :
    StoreLE s (s.recordReference a b k).2 :=
  ⟨fun _ _ hl => hl, fun _ hx => hx, fun _ hx => hx,
    fun x hx => List.mem_append_left _ hx⟩

theorem recordModule_le (s : Store) (name : NameHierarchy)
    (fileScope : SourceRange) : StoreLE s (recordModule s name fileScope).2 := by
  unfold recordModule
  simp only
  exact storeLE_trans (recordSymbol_le s name)
    (storeLE_trans (recordSymbolDefKind_le _ _ _)
      (storeLE_trans (recordSymbolKind_le _ _ _)
        (recordSymbolScopeLoc_le _ _ _)))

theorem recordPackage_le (s : Store) (name : NameHierarchy) :
    StoreLE s (recordPackage s name).2 := by
  unfold recordPackage
  simp only
  exact storeLE_trans (recordSymbol_le s name)
    (storeLE_trans (recordSymbolDefKind_le _ _ _) (recordSymbolKind_le _ _ _))

theorem recordPackageBuilder_le (s : Store) (name : NameHierarchy)
    (fileScope : SourceRange) :
    StoreLE s (recordPackageBuilder s name fileScope).2 := by
  unfold recordPackageBuilder
  simp only
  exact storeLE_trans (recordSymbol_le s name)
    (storeLE_trans (recordSymbolDefKind_le _ _ _)
      (storeLE_trans (recordSymbolKind_le _ _ _)
        (recordSymbolScopeLoc_le _ _ _)))

theorem recordPackagesFromBuilder_le (fileScope : SourceRange) (mid : Nat)
    (l : List String) : ∀ s : Store,
    StoreLE s (recordPackagesFromBuilder fileScope mid s l) := by
  induction l with
  | nil => intro s; exact storeLE_refl s
  | cons p rest ih =>
    intro s
    unfold recordPackagesFromBuilder
    by_cases hp : p = "node_modules"
    · simp only [if_pos hp]
      exact storeLE_trans
        (storeLE_trans (recordPackageBuilder_le s _ fileScope)
          (recordReference_le _ _ _ _))
        (ih _)
    · simp only [if_neg hp]
      exact ih s

theorem recordPackagesFrom_le (fileScope : SourceRange) (mid : Nat)
    (l : List String) : ∀ s : Store,
    StoreLE s (recordPackagesFrom fileScope mid s l) := by
  induction l with
  | nil => intro s; exact storeLE_refl s
  | cons p rest ih =>
    intro s
    unfold recordPackagesFrom
    by_cases hp : p = "node_modules"
    · simp only [if_pos hp]
      exact storeLE_trans
        (storeLE_trans (recordPackage_le s _) (recordReference_le _ _ _ _))
        (ih _)
    · simp only [if_neg hp]
      exact ih s

theorem recordModule_post (s : Store) (name : NameHierarchy)
    (fileScope : SourceRange) :
    (recordModule s name fileScope).2.lookupSymbol name =
      some (recordModule s name fileScope).1 ∧
    ((recordModule s name fileScope).1, SymbolKind.MODULE) ∈
      (recordModule s name fileScope).2.kinds ∧
    ((recordModule s name fileScope).1, fileScope) ∈
      (recordModule s name fileScope).2.scopes := by
  unfold recordModule
  simp only
  refine ⟨?_, ?_, ?_⟩
  · rw [lookupSymbol_scopeLoc, lookupSymbol_kind, lookupSymbol_defKind]
    exact recordSymbol_symbols_lookup s name
  · show _ ∈ (Store.recordSymbolScopeLocation _ _ _).kinds
    have hmem := recordSymbolKind_self_mem
      ((s.recordSymbol name).2.recordSymbolDefinitionKind (s.recordSymbol name).1
        DefinitionKind.EXPLICIT)
      (s.recordSymbol name).1 SymbolKind.MODULE
    exact hmem
  · show _ ∈ (Store.recordSymbolScopeLocation _ _ _).scopes
    exact List.mem_append_right _ (by simp)

theorem recordPackageBuilder_post (s : Store) (name : NameHierarchy)
    (fileScope : SourceRange) :
    (recordPackageBuilder s name fileScope).2.lookupSymbol name =
      some (recordPackageBuilder s name fileScope).1 ∧
    ((recordPackageBuilder s name fileScope).1, SymbolKind.PACKAGE) ∈
      (recordPackageBuilder s name fileScope).2.kinds ∧
    ((recordPackageBuilder s name fileScope).1, fileScope) ∈
      (recordPackageBuilder s name fileScope).2.scopes := by
  unfold recordPackageBuilder
  simp only
  refine ⟨?_, ?_, ?_⟩
  · rw [lookupSymbol_scopeLoc, lookupSymbol_kind, lookupSymbol_defKind]
    exact recordSymbol_symbols_lookup s name
  · show _ ∈ (Store.recordSymbolScopeLocation _ _ _).kinds
    exact recordSymbolKind_self_mem _ _ _
  · show _ ∈ (Store.recordSymbolScopeLocation _ _ _).scopes
    exact List.mem_append_right _ (by simp)

theorem recordPackage_post (s : Store) (name : NameHierarchy) :
    (recordPackage s name).2.lookupSymbol name = some (recordPackage s name).1 ∧
    ((recordPackage s name).1, SymbolKind.PACKAGE) ∈ (recordPackage s name).2.kinds := by
  unfold recordPackage
  simp only
  refine ⟨?_, ?_⟩
  · rw [lookupSymbol_kind, lookupSymbol_defKind]
    exact recordSymbol_symbols_lookup s name
  · exact recordSymbolKind_self_mem _ _ _

theorem recordReference_self (s : Store) (a b : Nat) (k : ReferenceKind) :
    ((s.recordReference a b k).1, a, b, k) ∈ (s.recordReference a b k).2.refs := by
  unfold Store.recordReference
  simp

theorem packageRecordedScoped_mono {s t : Store} {seg : List String} {mid : Nat}
    {fileScope : SourceRange} (hle : StoreLE s t)
    (hp : PackageRecordedScoped s seg mid fileScope) :
    PackageRecordedScoped t seg mid fileScope := by
  obtain ⟨pid, hl, hk, hs, rid, hr⟩ := hp
  exact ⟨pid, hle.1 _ pid hl, hle.2.1 _ hk, hle.2.2.1 _ hs, rid, hle.2.2.2 _ hr⟩

theorem packageRecordedUnscoped_mono {s t : Store} {seg : List String} {mid : Nat}
    (hle : StoreLE s t) (hp : PackageRecordedUnscoped s seg mid) :
    PackageRecordedUnscoped t seg mid := by
  obtain ⟨pid, hl, hk, rid, hr⟩ := hp
  exact ⟨pid, hle.1 _ pid hl, hle.2.1 _ hk, rid, hle.2.2.2 _ hr⟩

theorem moduleRecorded_mono {s t : Store} {parts : List String} {mid : Nat}
    {fileScope : SourceRange} (hle : StoreLE s t)
    (hm : ModuleRecorded s parts mid fileScope) :
    ModuleRecorded t parts mid fileScope := by
  obtain ⟨hl, hk, hs⟩ := hm
  exact ⟨hle.1 _ mid hl, hle.2.1 _ hk, hle.2.2.1 _ hs⟩

theorem recordPackagesFromBuilder_post (fileScope : SourceRange) (mid : Nat)
    (l : List String) : ∀ (s : Store) (i : Nat) (hi : i < l.length),
    l.get ⟨i, hi⟩ = "node_modules" →
    PackageRecordedScoped (recordPackagesFromBuilder fileScope mid s l)
      ((l.drop i).take 2) mid fileScope := by
  induction l with
  | nil => intro s i hi; cases hi
  | cons p rest ih =>
    intro s i hi hmark
    unfold recordPackagesFromBuilder
    cases i with
    | zero =>
      simp only [List.get] at hmark
      simp only [if_pos hmark, List.drop_zero]
      apply packageRecordedScoped_mono (recordPackagesFromBuilder_le fileScope mid rest _)
      subst hmark
      obtain ⟨hl, hk, hs⟩ := recordPackageBuilder_post s
        { sep := "/", elems := ("node_modules" :: rest).take 2 } fileScope
      refine ⟨(recordPackageBuilder s
          { sep := "/", elems := ("node_modules" :: rest).take 2 } fileScope).1,
        ?_, ?_, ?_, ?_⟩
      · rw [lookupSymbol_reference]; exact hl
      · exact hk
      · exact hs
      · exact ⟨((recordPackageBuilder s
            { sep := "/", elems := ("node_modules" :: rest).take 2 }
            fileScope).2.recordReference
            (recordPackageBuilder s
              { sep := "/", elems := ("node_modules" :: rest).take 2 }
              fileScope).1 mid ReferenceKind.INCLUDE).1,
          recordReference_self _ _ mid ReferenceKind.INCLUDE⟩
    | succ j =>
      simp only [List.get] at hmark
      have hj : j < rest.length := Nat.lt_of_succ_lt_succ hi
      simp only [List.drop_succ_cons]
      by_cases hp : p = "node_modules"
      · simp only [if_pos hp]
        exact ih _ j hj hmark
      · simp only [if_neg hp]
        exact ih s j hj hmark

theorem recordPackagesFrom_post (fileScope : SourceRange) (mid : Nat)
    (l : List String) : ∀ (s : Store) (i : Nat) (hi : i < l.length),
    l.get ⟨i, hi⟩ = "node_modules" →
    PackageRecordedUnscoped (recordPackagesFrom fileScope mid s l)
      ((l.drop i).take 2) mid := by
  induction l with
  | nil => intro s i hi; cases hi
  | cons p rest ih =>
    intro s i hi hmark
    unfold recordPackagesFrom
    cases i with
    | zero =>
      simp only [List.get] at hmark
      simp only [if_pos hmark, List.drop_zero]
      apply packageRecordedUnscoped_mono (recordPackagesFrom_le fileScope mid rest _)
      subst hmark
      obtain ⟨hl, hk⟩ := recordPackage_post s
        { sep := "/", elems := ("node_modules" :: rest).take 2 }
      refine ⟨(recordPackage s
          { sep := "/", elems := ("node_modules" :: rest).take 2 }).1,
        ?_, ?_, ?_⟩
      · rw [lookupSymbol_reference]; exact hl
      · exact hk
      · exact ⟨((recordPackage s
            { sep := "/", elems := ("node_modules" :: rest).take 2 }).2.recordReference
            (recordPackage s
              { sep := "/", elems := ("node_modules" :: rest).take 2 }).1
            mid ReferenceKind.INCLUDE).1,
          recordReference_self _ _ mid ReferenceKind.INCLUDE⟩
    | succ j =>
      simp only [List.get] at hmark
      have hj : j < rest.length := Nat.lt_of_succ_lt_succ hi
      simp only [List.drop_succ_cons]
      by_cases hp : p = "node_modules"
      · simp only [if_pos hp]
        exact ih _ j hj hmark
      · simp only [if_neg hp]
        exact ih s j hj hmark

theorem recordModule_refs (s : Store) (name : NameHierarchy)
    (fileScope : SourceRange) :
    (recordModule s name fileScope).2.refs = s.refs := by
  unfold recordModule
  simp only
  show (Store.recordSymbolScopeLocation _ _ _).refs = s.refs
  rw [show (Store.recordSymbolScopeLocation _ _ _).refs =
    (Store.recordSymbolKind _ _ _).refs from rfl]
  rw [recordSymbolKind_refs, recordSymbolDefKind_refs, recordSymbol_refs]

theorem recordPackageBuilder_refs (s : Store) (name : NameHierarchy)
    (fileScope : SourceRange) :
    (recordPackageBuilder s name fileScope).2.refs = s.refs := by
  unfold recordPackageBuilder
  simp only
  show (Store.recordSymbolScopeLocation _ _ _).refs = s.refs
  rw [show (Store.recordSymbolScopeLocation _ _ _).refs =
    (Store.recordSymbolKind _ _ _).refs from rfl]
  rw [recordSymbolKind_refs, recordSymbolDefKind_refs, recordSymbol_refs]

theorem recordPackage_refs (s : Store) (name : NameHierarchy) :
    (recordPackage s name).2.refs = s.refs := by
  unfold recordPackage
  simp only
  rw [recordSymbolKind_refs, recordSymbolDefKind_refs, recordSymbol_refs]

theorem recordPackagesFromBuilder_refs_len (fileScope : SourceRange) (mid : Nat)
    (l : List String) : ∀ s : Store,
    (recordPackagesFromBuilder fileScope mid s l).refs.length =
      s.refs.length + l.countP (fun p => p == "node_modules") := by
  induction l with
  | nil => intro s; simp [recordPackagesFromBuilder]
  | cons p rest ih =>
    intro s
    unfold recordPackagesFromBuilder
    by_cases hp : p = "node_modules"
    · simp only [if_pos hp]
      rw [ih]
      have hlen : ((recordPackageBuilder s
          { sep := "/", elems := (p :: rest).take 2 } fileScope).2.recordReference
          (recordPackageBuilder s { sep := "/", elems := (p :: rest).take 2 }
            fileScope).1 mid ReferenceKind.INCLUDE).2.refs.length =
          s.refs.length + 1 := by
        unfold Store.recordReference
        simp [recordPackageBuilder_refs]
      rw [hlen]
      simp [List.countP_cons, hp]
      omega
    · simp only [if_neg hp]
      rw [ih]
      have hpb : (p == "node_modules") = false := by
        simp [hp]
      simp [List.countP_cons, hpb]

theorem recordPackagesFrom_refs_len (fileScope : SourceRange) (mid : Nat)
    (l : List String) : ∀ s : Store,
    (recordPackagesFrom fileScope mid s l).refs.length =
      s.refs.length + l.countP (fun p => p == "node_modules") := by
  induction l with
  | nil => intro s; simp [recordPackagesFrom]
  | cons p rest ih =>
    intro s
    unfold recordPackagesFrom
    by_cases hp : p = "node_modules"
    · simp only [if_pos hp]
      rw [ih]
      have hlen : ((recordPackage s
          { sep := "/", elems := (p :: rest).take 2 }).2.recordReference
          (recordPackage s { sep := "/", elems := (p :: rest).take 2 }).1
          mid ReferenceKind.INCLUDE).2.refs.length = s.refs.length + 1 := by
        unfold Store.recordReference
        simp [recordPackage_refs]
      rw [hlen]
      simp [List.countP_cons, hp]
      omega
    · simp only [if_neg hp]
      rw [ih]
      have hpb : (p == "node_modules") = false := by
        simp [hp]
      simp [List.countP_cons, hpb]

-- ## Claim C6

/-- Claim C6 counterexample: the claim states that for each node_modules
segment the deriver records a package symbol with the same file-spanning
scope as the module.  In the writer draft, recordPackage records symbol,
definition kind and kind but no scope: on the example path the resulting
store has exactly one scope row — the module symbol id 1 — and the package
symbol (id 2, hierarchy node_modules/lodash) has no scope row at all. -/
theorem c6_writer_package_scope_counterexample :
    (sourceFileToModuleSymbolId emptyStore "project/node_modules/lodash/index.ts"
      c6FileScope).1 = 1 ∧
    (sourceFileToModuleSymbolId emptyStore "project/node_modules/lodash/index.ts"
      c6FileScope).2.scopes = [(1, c6FileScope)] ∧
    (sourceFileToModuleSymbolId emptyStore "project/node_modules/lodash/index.ts"
      c6FileScope).2.lookupSymbol { sep := "/", elems := ["node_modules", "lodash"] } =
      some 2 ∧
    (sourceFileToModuleSymbolId emptyStore "project/node_modules/lodash/index.ts"
      c6FileScope).2.scopes.filter (fun p => p.1 == 2) = [] := by
  decide

/-- Claim C6 as amended: for every source file, both derivers split the
relative path into ordered segments and record a module-kind symbol over
the whole segment list with a file-spanning scope; for every index whose
segment is node_modules they record a package-kind symbol over the
two-element slice there, linked to the module symbol by an INCLUDE
reference from package to module, one reference edge per occurrence.  The
builder-draft deriver gives each package symbol the same file-spanning
scope; the writer-draft deriver records package symbols without any scope
row (see the counterexample). -/
theorem c6_module_package_deriver (relPath : String) (fileScope : SourceRange) :
    C6BuilderSpec relPath fileScope ∧ C6WriterSpec relPath fileScope := by
  constructor
  · unfold C6BuilderSpec sourceFileToModuleSymbol
    simp only
    refine ⟨?_, ?_, ?_⟩
    · exact moduleRecorded_mono
        (recordPackagesFromBuilder_le fileScope _ _ _)
        (recordModule_post emptyStore _ fileScope)
    · intro i hi hmark
      exact recordPackagesFromBuilder_post fileScope _ _ _ i hi hmark
    · rw [recordPackagesFromBuilder_refs_len, recordModule_refs]
      simp [emptyStore]
  · unfold C6WriterSpec sourceFileToModuleSymbolId
    simp only
    refine ⟨?_, ?_, ?_⟩
    · exact moduleRecorded_mono
        (recordPackagesFrom_le fileScope _ _ _)
        (recordModule_post emptyStore _ fileScope)
    · intro i hi hmark
      exact recordPackagesFrom_post fileScope _ _ _ i hi hmark
    · rw [recordPackagesFrom_refs_len, recordModule_refs]
      simp [emptyStore]

/-- Witness for claim C6 as amended: the example path, with the package
property of the builder draft extracted at the node_modules index. -/
theorem c6_module_package_deriver_witness :
    C6BuilderSpec "project/node_modules/lodash/index.ts" c6FileScope ∧
    PackageRecordedScoped
      (sourceFileToModuleSymbol emptyStore "project/node_modules/lodash/index.ts"
        c6FileScope).2
      ["node_modules", "lodash"]
      (sourceFileToModuleSymbol emptyStore "project/node_modules/lodash/index.ts"
        c6FileScope).1
      c6FileScope :=
  ⟨(c6_module_package_deriver "project/node_modules/lodash/index.ts" c6FileScope).1,
    (c6_module_package_deriver "project/node_modules/lodash/index.ts"
      c6FileScope).1.2.1 1 (by decide) (by decide)⟩
